import Mathlib

/-!
Verification development for the google-publisher-tag-playground sample
generator.  The definitions below are a shallow embedding of the
TypeScript sources `src/codegen/api/googletag.ts`, `src/codegen/api/slot.ts`,
the entry point that decodes a config from the URL hash, and the data model
of `src/model/sample-config.ts`.  JavaScript strings are Lean `String`s,
optional fields are `Option`s, and the JavaScript number `-1` returned by
`Array.prototype.indexOf` / `findIndex` is kept as an `Int`.
-/

namespace Codegen

/-! ### Data model (`src/model/sample-config.ts`) -/

/-- Modelled from the spec: `googletag.enums.OutOfPageFormat` is an enum of
the out-of-page format names provided by the GPT library; its defining file
is external to the repository.  `SampleSlotConfig.format` holds one of its
keys. -/
inductive OutOfPageFormat
  | BOTTOM_ANCHOR
  | GAME_MANUAL_INTERSTITIAL
  | INTERSTITIAL
  | REWARDED
  | TOP_ANCHOR
deriving DecidableEq

/-- A single entry of `googletag.GeneralSize`: a fixed `[width, height]`
pair or the named size `fluid`. -/
inductive SingleSize
  | fixed (width height : Nat)
  | fluid
deriving DecidableEq

/-- `googletag.GeneralSize`: a single size or a list of single sizes. -/
inductive GeneralSize
  | single (s : SingleSize)
  | multi (sizes : List SingleSize)
deriving DecidableEq

/-- The value of a targeting key-value: `string | string[]`. -/
inductive TargetingValue
  | one (s : String)
  | many (l : List String)
deriving DecidableEq

/-- `SampleTargetingKV`: a single targeting key-value. -/
structure SampleTargetingKV where
  key : String
  value : TargetingValue
deriving DecidableEq

/-- `SamplePrivacyConfig`: privacy-related page flags. -/
structure SamplePrivacyConfig where
  ltd : Option Bool := none
  npa : Option Bool := none
  rdp : Option Bool := none
  tfcd : Option Bool := none
  tfua : Option Bool := none
deriving DecidableEq

/-- `SamplePageConfig`: page-level GPT settings. -/
structure SamplePageConfig where
  privacy : Option SamplePrivacyConfig := none
  sra : Option Bool := none
  targeting : Option (List SampleTargetingKV) := none
deriving DecidableEq

/-- `SampleSlotConfig`: settings of a single ad slot. -/
structure SampleSlotConfig where
  adUnit : String
  format : Option OutOfPageFormat := none
  size : GeneralSize
  targeting : Option (List SampleTargetingKV) := none
deriving DecidableEq

/-- `SampleTemplateConfig`: sample template options.  `TemplateType` and
`ts.ScriptTarget` are defined outside the repository; they are modelled as a
string and a numeric enum value. -/
structure SampleTemplateConfig where
  type : Option String := none
  target : Option Nat := none
deriving DecidableEq

/-- `SampleConfig`: an optional page config, an ordered list of slot
configs and an optional template config. -/
structure SampleConfig where
  page : Option SamplePageConfig := none
  slots : List SampleSlotConfig
  template : Option SampleTemplateConfig := none
deriving DecidableEq

/-- The key string of an out-of-page format, as produced by
`String(slot.format)` in JavaScript. -/
def formatKey : OutOfPageFormat → String
  | .BOTTOM_ANCHOR => "BOTTOM_ANCHOR"
  | .GAME_MANUAL_INTERSTITIAL => "GAME_MANUAL_INTERSTITIAL"
  | .INTERSTITIAL => "INTERSTITIAL"
  | .REWARDED => "REWARDED"
  | .TOP_ANCHOR => "TOP_ANCHOR"

/-- `String(slot.format)` on the optional format: the key when present and
the string `undefined` otherwise, as JavaScript template interpolation
renders `undefined`. -/
def formatKeyStr (f : Option OutOfPageFormat) : String :=
  (f.map formatKey).getD "undefined"

/-- Modelled from the spec: `outOfPageFormatNames` of `src/model/settings.ts`
(missing from the sources) maps each out-of-page format to its human-readable
display name. -/
def outOfPageFormatNames : OutOfPageFormat → String
  | .BOTTOM_ANCHOR => "Anchor ad (bottom)"
  | .GAME_MANUAL_INTERSTITIAL => "Gaming interstitial ad"
  | .INTERSTITIAL => "Web interstitial ad"
  | .REWARDED => "Rewarded ad"
  | .TOP_ANCHOR => "Anchor ad (top)"

/-- `outOfPageFormatNames[slot.format!]` interpolated into a template: the
display name when the format is present and `undefined` otherwise. -/
def formatNameStr (f : Option OutOfPageFormat) : String :=
  (f.map outOfPageFormatNames).getD "undefined"

/-! ### Decimal rendering

JavaScript renders the numbers appearing in generated code (slot indices,
sizes) in decimal.  `natPrint` / `intPrint` are the decimal renderings used
by the embedding, together with a parser used to prove them injective. -/

/-- The character of a decimal digit. -/
def digitChar (d : Nat) : Char := Char.ofNat (48 + d)

/-- The value of a decimal digit character, `none` for other characters. -/
def digitVal (c : Char) : Option Nat :=
  if 48 ≤ c.toNat ∧ c.toNat ≤ 57 then some (c.toNat - 48) else none

/-- Decimal digit characters of a natural number, most significant first. -/
def natPrintChars (n : Nat) : List Char :=
  if n = 0 then ['0'] else ((Nat.digits 10 n).map digitChar).reverse

/-- Decimal rendering of a natural number. -/
def natPrint (n : Nat) : String := String.mk (natPrintChars n)

/-- Decimal rendering of an integer. -/
def intPrint (i : Int) : String :=
  if i < 0 then "-" ++ natPrint i.natAbs else natPrint i.toNat

/-- Parse a non-empty all-digit character list as a natural number. -/
def natParseChars (cs : List Char) : Option Nat :=
  (cs.mapM digitVal).bind fun ds =>
    if ds = [] then none else some (Nat.ofDigits 10 ds.reverse)

/-- Concatenation of a list of strings. -/
def strConcat (l : List String) : String := l.foldr (· ++ ·) ""

/-! ### Values passed to `sanitizeJs`

`sanitizeJs` of `src/codegen/sanitize.ts` is called on the ad unit path (a
string), the slot size (a `googletag.GeneralSize`) and on targeting keys
(strings) and values (`string | string[]`).  `JsVal` is the union of those
value shapes. -/

/-- A JavaScript value handed to `sanitizeJs`. -/
inductive JsVal
  | str : String → JsVal
  | num : Nat → JsVal
  | arr : List JsVal → JsVal

/-- The `JsVal` of a single size. -/
def singleSizeVal : SingleSize → JsVal
  | .fixed w h => .arr [.num w, .num h]
  | .fluid => .str "fluid"

/-- The `JsVal` of a `GeneralSize`. -/
def sizeVal : GeneralSize → JsVal
  | .single s => singleSizeVal s
  | .multi l => .arr (l.map singleSizeVal)

/-- The `JsVal` of a targeting value. -/
def tvVal : TargetingValue → JsVal
  | .one s => .str s
  | .many l => .arr (l.map .str)

/-- Escape backslashes and single quotes for embedding in a JS string
literal. -/
def escapeJsChar (c : Char) : List Char :=
  if c = '\\' then ['\\', '\\']
  else if c = '\x27' then ['\\', '\x27']
  else [c]

/-- Modelled from the spec: `sanitizeJs` of `src/codegen/sanitize.ts`
(missing from the sources) serializes a value as a JavaScript literal,
sanitizing strings for safe embedding into generated code. -/
def sanitizeJs : JsVal → String
  | .str s => "\x27" ++ String.mk (s.data.flatMap escapeJsChar) ++ "\x27"
  | .num n => toString n
  | .arr l => "[" ++ String.intercalate ", " (l.attach.map fun v => sanitizeJs v.1) ++ "]"
decreasing_by
  simp_wf
  have h := List.sizeOf_lt_of_mem v.2
  omega

/-! ### JavaScript array helpers

`Array.prototype.indexOf` and `findIndex` return `-1` on failure; the
embeddings keep the `Int` result. -/

/-- `Array.prototype.indexOf`: index of the first occurrence, `-1` when
absent. -/
def indexOfJs (l : List SampleSlotConfig) (s : SampleSlotConfig) : Int :=
  match l with
  | [] => -1
  | x :: xs =>
    if x = s then 0
    else
      let r := indexOfJs xs s
      if r = -1 then -1 else r + 1

/-- `Array.prototype.findIndex`: index of the first element satisfying the
predicate, `-1` when none does. -/
def findIndexJs (p : SampleSlotConfig → Bool) (l : List SampleSlotConfig) : Int :=
  match l with
  | [] => -1
  | x :: xs =>
    if p x then 0
    else
      let r := findIndexJs p xs
      if r = -1 then -1 else r + 1

/-- JavaScript array indexing `a[i]` with a possibly negative index:
`undefined` (here `none`) outside the bounds. -/
def listGetInt (l : List SampleSlotConfig) (i : Int) : Option SampleSlotConfig :=
  if i < 0 then none else l[i.toNat]?

/-! ### `src/codegen/api/slot.ts` -/

/-- Template `api.addService` of `slot.ts`. -/
def apiAddService : String := "addService(googletag.pubads())"

/-- Template `api.setTargeting` of `slot.ts`, parameterized by the
sanitizer it applies to the key and the value. -/
def apiSetTargetingWith (san : JsVal → String) (kv : SampleTargetingKV) : String :=
  "setTargeting(" ++ san (.str kv.key) ++ ", " ++ san (tvVal kv.value) ++ ")"

/-- Template `api.setTargeting` of `slot.ts` with the repository's
`sanitizeJs`. -/
def apiSetTargeting (kv : SampleTargetingKV) : String :=
  apiSetTargetingWith sanitizeJs kv

/-- `addInlineSlotSettings` of `slot.ts`, parameterized by the sanitizer
used for targeting key-values: append one chained `.setTargeting(...)` per
targeting entry, then the chained `.addService(...)` call. -/
def addInlineSlotSettingsWith (san : JsVal → String)
    (config : SampleSlotConfig) (slotDefinition : String) : String :=
  let slotSettings := (config.targeting.getD []).foldl
    (fun acc kv => acc ++ "." ++ apiSetTargetingWith san kv) slotDefinition
  slotSettings ++ "." ++ apiAddService ++ ";"

/-- `addInlineSlotSettings` of `slot.ts` with the repository's
`sanitizeJs`. -/
def addInlineSlotSettings (config : SampleSlotConfig) (slotDefinition : String) : String :=
  addInlineSlotSettingsWith sanitizeJs config slotDefinition

/-! ### `src/codegen/api/googletag.ts` -/

/-- Template `api.cmdInit`. -/
def apiCmdInit : String := "window.googletag = window.googletag || \x7bcmd: []\x7d"

/-- Template `api.cmdPush`. -/
def apiCmdPush (content : String) : String :=
  "googletag.cmd.push(() => \x7b" ++ content ++ "\x7d)"

/-- Template `api.declareSlot`. -/
def apiDeclareSlot (id : String) : String :=
  "let " ++ id ++ ": googletag.Slot|null"

/-- Template `api.defineSlot`, parameterized by the sanitizer applied to the
ad unit path and the size. -/
def apiDefineSlotWith (san : JsVal → String) (slot : SampleSlotConfig) (id : String) : String :=
  "googletag.defineSlot(" ++ san (.str slot.adUnit) ++ ", " ++ san (sizeVal slot.size) ++
    ", \x27" ++ id ++ "\x27)"

/-- Template `api.defineSlot` with the repository's `sanitizeJs`. -/
def apiDefineSlot (slot : SampleSlotConfig) (id : String) : String :=
  apiDefineSlotWith sanitizeJs slot id

/-- Template `api.defineOutOfPageSlot`, parameterized by the sanitizer
applied to the ad unit path; the format is embedded via `String(...)`. -/
def apiDefineOutOfPageSlotWith (san : JsVal → String) (slot : SampleSlotConfig) : String :=
  "googletag.defineOutOfPageSlot(" ++ san (.str slot.adUnit) ++
    ", googletag.enums.OutOfPageFormat." ++ formatKeyStr slot.format ++ ")"

/-- Template `api.defineOutOfPageSlot` with the repository's `sanitizeJs`. -/
def apiDefineOutOfPageSlot (slot : SampleSlotConfig) : String :=
  apiDefineOutOfPageSlotWith sanitizeJs slot

/-- Template `api.display`. -/
def apiDisplay (idOrSlot : String) : String :=
  "googletag.display(" ++ idOrSlot ++ ")"

/-- Template `api.enableServices`. -/
def apiEnableServices : String := "googletag.enableServices()"

/-- Template `outOfPage.comment`. -/
def outOfPageComment (format : String) : String :=
  format ++ " slots return null if the page or device does not support them."

/-- Template `outOfPage.loaded`. -/
def outOfPageLoaded (format : String) : String := format ++ " is loaded."

/-- Template `outOfPage.loadedNeedScroll`. -/
def outOfPageLoadedNeedScroll (format : String) : String :=
  outOfPageLoaded format ++ " Scroll page to activate."

/-- Template `outOfPage.loadedUrl`. -/
def outOfPageLoadedUrl (format : String) : String :=
  "<a href=\"https://www.example.com\">" ++ outOfPageLoaded format ++ "</a>"

/-- Template `outOfPage.loading`. -/
def outOfPageLoading (format : String) : String := format ++ " is loading..."

/-- Template `outOfPage.notSupported`. -/
def outOfPageNotSupported (format : String) : String :=
  format ++ " is not supported on this page."

/-- Template `status.container`. -/
def statusContainer (id : String) : String :=
  "document.getElementById(\x27" ++ id ++ "\x27)"

/-- Template `status.update`. -/
def statusUpdate (id content : String) : String :=
  statusContainer id ++ "!.innerText = \x27" ++ content ++ "\x27"

/-- Template `status.updateHtml`. -/
def statusUpdateHtml (id content : String) : String :=
  statusContainer id ++ "!.innerHTML = \x27" ++ content ++ "\x27"

/-- Modelled from the spec: `pubads.addEventListener` of
`src/codegen/api/pubads.ts` (missing from the sources) emits the code
registering an event listener of the given type with the given callback
body on the pubads service. -/
def pubadsAddEventListener (eventType : String) (callback : String) : String :=
  "googletag.pubads().addEventListener(\x27" ++ eventType ++
    "\x27, (event) => \x7b" ++ callback ++ "\x7d);"

/-- `getSlotIdentifer` of `googletag.ts`: the string `slot` followed by the
slot's `indexOf` position plus one. -/
def getSlotIdentifer (config : SampleConfig) (slotConfig : SampleSlotConfig) : String :=
  "slot" ++ intPrint (indexOfJs config.slots slotConfig + 1)

/-- `getSlotOnloadCallback` of `googletag.ts`: the `slotOnload` callback
body, whose status update is switched on the slot's format. -/
def getSlotOnloadCallback (config : SampleConfig) (slot : SampleSlotConfig) : String :=
  let id := getSlotIdentifer config slot
  let formatStr := formatNameStr slot.format
  let upd :=
    match slot.format with
    | some .INTERSTITIAL => statusUpdateHtml id (outOfPageLoadedUrl formatStr)
    | some .TOP_ANCHOR => statusUpdate id (outOfPageLoadedNeedScroll formatStr)
    | _ => statusUpdate id (outOfPageLoaded formatStr)
  "\n    if(" ++ id ++ " === event.slot) \x7b\n      " ++ upd ++ ";\n    \x7d\n  "

/-- Export `cmd.init`. -/
def cmdInit : String := apiCmdInit ++ ";"

/-- Export `cmd.push`. -/
def cmdPush (content : String) : String := apiCmdPush content ++ ";"

/-- `enableServices` of `googletag.ts`. -/
def enableServices : String := apiEnableServices ++ ";"

/-- `declareSlot` of `googletag.ts`. -/
def declareSlot (config : SampleConfig) (slotConfig : SampleSlotConfig) : String :=
  apiDeclareSlot (getSlotIdentifer config slotConfig) ++ ";"

/-- `defineSlot` of `googletag.ts`. -/
def defineSlot (config : SampleConfig) (slotConfig : SampleSlotConfig) : String :=
  let slotDef := apiDefineSlot slotConfig (getSlotIdentifer config slotConfig) ++ "!"
  addInlineSlotSettings slotConfig slotDef

/-- `defineOutOfPageSlot` of `googletag.ts`: the template literal of the
source with its trailing `.trim()`. -/
def defineOutOfPageSlot (config : SampleConfig) (slotConfig : SampleSlotConfig) : String :=
  let slotVar := getSlotIdentifer config slotConfig
  let formatString := formatNameStr slotConfig.format
  ("\n    " ++ slotVar ++ " = " ++ apiDefineOutOfPageSlot slotConfig ++ ";\n\n    // " ++
    outOfPageComment formatString ++ "\n    if(!" ++ slotVar ++ ") \x7b\n      " ++
    statusUpdate slotVar (outOfPageNotSupported formatString) ++
    ";\n    \x7d else \x7b\n      " ++
    addInlineSlotSettings slotConfig slotVar ++ ";\n\n      " ++
    statusUpdate slotVar (outOfPageLoading formatString) ++ ";\n\n      " ++
    pubadsAddEventListener "slotOnload" (getSlotOnloadCallback config slotConfig) ++
    "\n    \x7d\n  ").trim

/-- `display` of `googletag.ts`: display by variable (guarded) for an
out-of-page slot, display by element id otherwise. -/
def display (config : SampleConfig) (slotConfig : SampleSlotConfig) : String :=
  let id := getSlotIdentifer config slotConfig
  if slotConfig.format.isSome then
    let idOrSlot := id
    "if (" ++ idOrSlot ++ ") \x7b " ++ apiDisplay idOrSlot ++ "; \x7d"
  else
    let idOrSlot := "\x27" ++ id ++ "\x27"
    apiDisplay idOrSlot ++ ";"

/-- Truthiness of `config.page?.sra`. -/
def sraEnabled (config : SampleConfig) : Bool :=
  (config.page.bind SamplePageConfig.sra).getD false

/-- The index computed by the single-request-architecture branch of
`displayAll`: the `findIndex` of the first slot without an out-of-page
format, with `-1` mapped to `config.slots.length - 1`. -/
def sraIndex (config : SampleConfig) : Int :=
  let index0 := findIndexJs (fun s => !s.format.isSome) config.slots
  if index0 = -1 then (config.slots.length : Int) - 1 else index0

/-- `displayAll` of `googletag.ts`.  The result is `none` when the slot
lookup `config.slots[index]` is out of range, in which case the JavaScript
code throws on `undefined`. -/
def displayAll (config : SampleConfig) : Option String :=
  if sraEnabled config then
    (listGetInt config.slots (sraIndex config)).map (fun s => display config s)
  else
    some (config.slots.foldl (fun acc s => acc ++ display config s) "")

end Codegen

namespace Codegen

/-! ### JSON values (spec-modelled)

The URL-hash serializer of the spec is `base64url + JSON`: the entry point
runs `JSON.parse(base64url.decode(configParam))` and the configurator
produces the parameter with the inverse composition.  `JSON.stringify` /
`JSON.parse` and the `base64url` utility module are external to the
sources, so they are modelled here: `Json` is the value language, printed
without whitespace as `JSON.stringify` does, and parsed back by a
recursive-descent parser. -/

/-- Modelled from the spec: a JSON value as used by the config serializer. -/
inductive Json
  | null
  | bool (b : Bool)
  | num (n : Nat)
  | str (s : String)
  | arr (elems : List Json)
  | obj (fields : List (String × Json))

/-- Escape a character for a JSON string literal. -/
def escapeJsonChar (c : Char) : List Char :=
  if c = '"' then ['\\', '"']
  else if c = '\\' then ['\\', '\\']
  else [c]

/-- Unescape the character following a backslash in a JSON string
literal. -/
def unescapeJsonChar (c : Char) : Char :=
  if c = 'n' then '\n' else if c = 't' then '\t' else c

/-- Print a JSON string literal. -/
def printStr (s : String) : List Char :=
  '"' :: (s.data.flatMap escapeJsonChar ++ ['"'])

mutual

/-- Modelled from the spec: `JSON.stringify`, emitting a JSON value with no
whitespace. -/
def printJson : Json → List Char
  | .null => 'n' :: 'u' :: 'l' :: 'l' :: []
  | .bool true => 't' :: 'r' :: 'u' :: 'e' :: []
  | .bool false => 'f' :: 'a' :: 'l' :: 's' :: 'e' :: []
  | .num n => natPrintChars n
  | .str s => printStr s
  | .arr l => '[' :: (printList l ++ [']'])
  | .obj l => '\x7b' :: (printFields l ++ ['\x7d'])

/-- Print the comma-separated elements of a JSON array. -/
def printList : List Json → List Char
  | [] => []
  | [e] => printJson e
  | e :: es => printJson e ++ ',' :: printList es

/-- Print the comma-separated fields of a JSON object. -/
def printFields : List (String × Json) → List Char
  | [] => []
  | [(k, v)] => printStr k ++ ':' :: printJson v
  | (k, v) :: fs => (printStr k ++ ':' :: printJson v) ++ ',' :: printFields fs

end

/-- Whether the first character, if any, is not a decimal digit; number
parsing is maximal-munch, so round-trip statements track this on the
remainder. -/
def headNotDigit : List Char → Prop
  | [] => True
  | c :: _ => digitVal c = none

/-- Pop one character. -/
def takeC : List Char → Option (Char × List Char)
  | c :: r => some (c, r)
  | [] => none

/-- Parse a JSON string literal body (after the opening quote), fuelled to
keep the recursion structural. -/
def parseStringBody : Nat → List Char → Option (List Char × List Char)
  | 0, _ => none
  | _ + 1, [] => none
  | fuel + 1, c :: rest =>
    if c = '"' then some ([], rest)
    else if c = '\\' then
      (takeC rest).bind fun p =>
        (parseStringBody fuel p.2).map fun q => (unescapeJsonChar p.1 :: q.1, q.2)
    else (parseStringBody fuel rest).map fun p => (c :: p.1, p.2)

/-- Accumulate decimal digits (most significant first) into a little-endian
digit list. -/
def parseNumAux : List Char → List Nat → (List Nat × List Char)
  | [], acc => (acc, [])
  | c :: rest, acc =>
    match digitVal c with
    | some d => parseNumAux rest (d :: acc)
    | none => (acc, c :: rest)

/-- Parse a decimal number. -/
def parseNum (cs : List Char) : Option (Json × List Char) :=
  let p := parseNumAux cs []
  if p.1 = [] then none else some (.num (Nat.ofDigits 10 p.1), p.2)

mutual

/-- Modelled from the spec: `JSON.parse` on the value grammar emitted by
`printJson`, fuelled to make the recursion structural. -/
def parseJson : Nat → List Char → Option (Json × List Char)
  | 0, _ => none
  | _ + 1, [] => none
  | fuel + 1, c :: rest =>
    if c = 'n' then
      match rest with
      | 'u' :: 'l' :: 'l' :: r => some (.null, r)
      | _ => none
    else if c = 't' then
      match rest with
      | 'r' :: 'u' :: 'e' :: r => some (.bool true, r)
      | _ => none
    else if c = 'f' then
      match rest with
      | 'a' :: 'l' :: 's' :: 'e' :: r => some (.bool false, r)
      | _ => none
    else if c = '"' then
      (parseStringBody (rest.length + 1) rest).map fun p => (.str (String.mk p.1), p.2)
    else if c = '[' then
      (parseElems fuel rest).map fun p => (.arr p.1, p.2)
    else if c = '\x7b' then
      (parseFields fuel rest).map fun p => (.obj p.1, p.2)
    else if (digitVal c).isSome then parseNum (c :: rest)
    else none

/-- Parse the elements of a JSON array up to the closing bracket. -/
def parseElems : Nat → List Char → Option (List Json × List Char)
  | 0, _ => none
  | _ + 1, [] => none
  | fuel + 1, c :: rest =>
    if c = ']' then some ([], rest)
    else
      (parseJson fuel (c :: rest)).bind fun pv =>
        match pv.2 with
        | ',' :: r2 => (parseElems fuel r2).map fun pe => (pv.1 :: pe.1, pe.2)
        | ']' :: r2 => some ([pv.1], r2)
        | _ => none

/-- Parse the fields of a JSON object up to the closing brace. -/
def parseFields : Nat → List Char → Option (List (String × Json) × List Char)
  | 0, _ => none
  | _ + 1, [] => none
  | fuel + 1, c :: rest =>
    if c = '\x7d' then some ([], rest)
    else if c = '"' then
      (parseStringBody (rest.length + 1) rest).bind fun pk =>
        match pk.2 with
        | ':' :: r2 =>
          (parseJson fuel r2).bind fun pv =>
            match pv.2 with
            | ',' :: r3 =>
              (parseFields fuel r3).map fun pf =>
                ((String.mk pk.1, pv.1) :: pf.1, pf.2)
            | '\x7d' :: r3 => some ([(String.mk pk.1, pv.1)], r3)
            | _ => none
        | _ => none
    else none

end

mutual

/-- Fuel sufficient for `parseJson` on the output of `printJson`. -/
def needJ : Json → Nat
  | .null => 1
  | .bool _ => 1
  | .num _ => 1
  | .str _ => 1
  | .arr l => 1 + needElems l
  | .obj l => 1 + needFields l

/-- Fuel sufficient for `parseElems` on the output of `printList`. -/
def needElems : List Json → Nat
  | [] => 1
  | [e] => 1 + needJ e
  | e :: es => 1 + needJ e + needElems es

/-- Fuel sufficient for `parseFields` on the output of `printFields`. -/
def needFields : List (String × Json) → Nat
  | [] => 1
  | [(_, v)] => 1 + needJ v
  | (_, v) :: fs => 1 + needJ v + needFields fs

end

/-- `JSON.stringify` at the string level. -/
def jsonPrint (j : Json) : String := String.mk (printJson j)

/-- `JSON.parse` at the string level: parse the whole input. -/
def jsonParse (s : String) : Option Json :=
  (parseJson (s.data.length + 1) s.data).bind fun p =>
    if p.2 = [] then some p.1 else none

end Codegen

namespace Codegen

/-! ### Config to/from JSON

`JSON.stringify` on a `SampleConfig` object emits its present fields in
declaration order and omits absent optional fields; `JSON.parse` followed
by the (unchecked) TypeScript cast reads them back.  The decoders below are
the typed reading of the parsed value. -/

/-- The field list contributed by an optional property: absent properties
are omitted by `JSON.stringify`. -/
def optField (k : String) : Option Json → List (String × Json)
  | some v => [(k, v)]
  | none => []

/-- JSON of a targeting value. -/
def tvToJson : TargetingValue → Json
  | .one s => .str s
  | .many l => .arr (l.map .str)

/-- JSON of a targeting key-value. -/
def kvToJson (kv : SampleTargetingKV) : Json :=
  .obj [("key", .str kv.key), ("value", tvToJson kv.value)]

/-- JSON of a single size. -/
def singleSizeToJson : SingleSize → Json
  | .fixed w h => .arr [.num w, .num h]
  | .fluid => .str "fluid"

/-- JSON of a `GeneralSize`. -/
def sizeToJson : GeneralSize → Json
  | .single s => singleSizeToJson s
  | .multi l => .arr (l.map singleSizeToJson)

/-- JSON of a privacy config. -/
def privacyToJson (p : SamplePrivacyConfig) : Json :=
  .obj (optField "ltd" (p.ltd.map .bool) ++ optField "npa" (p.npa.map .bool) ++
    optField "rdp" (p.rdp.map .bool) ++ optField "tfcd" (p.tfcd.map .bool) ++
    optField "tfua" (p.tfua.map .bool))

/-- JSON of a page config. -/
def pageToJson (p : SamplePageConfig) : Json :=
  .obj (optField "privacy" (p.privacy.map privacyToJson) ++
    optField "sra" (p.sra.map .bool) ++
    optField "targeting" (p.targeting.map fun l => .arr (l.map kvToJson)))

/-- JSON of a slot config. -/
def slotToJson (s : SampleSlotConfig) : Json :=
  .obj ([("adUnit", .str s.adUnit)] ++
    optField "format" (s.format.map fun f => .str (formatKey f)) ++
    [("size", sizeToJson s.size)] ++
    optField "targeting" (s.targeting.map fun l => .arr (l.map kvToJson)))

/-- JSON of a template config. -/
def templateToJson (t : SampleTemplateConfig) : Json :=
  .obj (optField "type" (t.type.map .str) ++ optField "target" (t.target.map .num))

/-- JSON of a sample config. -/
def configToJson (c : SampleConfig) : Json :=
  .obj (optField "page" (c.page.map pageToJson) ++
    [("slots", .arr (c.slots.map slotToJson))] ++
    optField "template" (c.template.map templateToJson))

/-- Look a key up in a JSON object's field list. -/
def jLookup : List (String × Json) → String → Option Json
  | [], _ => none
  | (k, v) :: fs, key => if k = key then some v else jLookup fs key

/-- Decode an optional field: an absent key decodes to `none`. -/
def optDec {α : Type} (fs : List (String × Json)) (k : String)
    (dec : Json → Option α) : Option (Option α) :=
  match jLookup fs k with
  | none => some none
  | some v => (dec v).map some

/-- Decode a JSON boolean. -/
def boolOfJson : Json → Option Bool
  | .bool b => some b
  | _ => none

/-- Decode a JSON string. -/
def strOfJson : Json → Option String
  | .str s => some s
  | _ => none

/-- Decode a JSON number. -/
def natOfJson : Json → Option Nat
  | .num n => some n
  | _ => none

/-- Decode an out-of-page format key. -/
def formatOfKey (s : String) : Option OutOfPageFormat :=
  if s = "BOTTOM_ANCHOR" then some .BOTTOM_ANCHOR
  else if s = "GAME_MANUAL_INTERSTITIAL" then some .GAME_MANUAL_INTERSTITIAL
  else if s = "INTERSTITIAL" then some .INTERSTITIAL
  else if s = "REWARDED" then some .REWARDED
  else if s = "TOP_ANCHOR" then some .TOP_ANCHOR
  else none

/-- Decode an out-of-page format. -/
def formatOfJson : Json → Option OutOfPageFormat
  | .str s => formatOfKey s
  | _ => none

/-- Decode a targeting value. -/
def tvOfJson : Json → Option TargetingValue
  | .str s => some (.one s)
  | .arr l => (l.mapM strOfJson).map .many
  | _ => none

/-- Decode a targeting key-value. -/
def kvOfJson : Json → Option SampleTargetingKV
  | .obj fs =>
    (jLookup fs "key").bind fun jk =>
      (strOfJson jk).bind fun k =>
        (jLookup fs "value").bind fun jv =>
          (tvOfJson jv).map fun v => ⟨k, v⟩
  | _ => none

/-- Decode a list of targeting key-values. -/
def kvListOfJson : Json → Option (List SampleTargetingKV)
  | .arr l => l.mapM kvOfJson
  | _ => none

/-- Decode a single size. -/
def singleSizeOfJson : Json → Option SingleSize
  | .str s => if s = "fluid" then some .fluid else none
  | .arr [.num w, .num h] => some (.fixed w h)
  | _ => none

/-- Decode a `GeneralSize`. -/
def sizeOfJson : Json → Option GeneralSize
  | .str s => if s = "fluid" then some (.single .fluid) else none
  | .arr [.num w, .num h] => some (.single (.fixed w h))
  | .arr l => (l.mapM singleSizeOfJson).map .multi
  | _ => none

/-- Decode a privacy config. -/
def privacyOfJson : Json → Option SamplePrivacyConfig
  | .obj fs =>
    (optDec fs "ltd" boolOfJson).bind fun ltd =>
      (optDec fs "npa" boolOfJson).bind fun npa =>
        (optDec fs "rdp" boolOfJson).bind fun rdp =>
          (optDec fs "tfcd" boolOfJson).bind fun tfcd =>
            (optDec fs "tfua" boolOfJson).map fun tfua =>
              ⟨ltd, npa, rdp, tfcd, tfua⟩
  | _ => none

/-- Decode a page config. -/
def pageOfJson : Json → Option SamplePageConfig
  | .obj fs =>
    (optDec fs "privacy" privacyOfJson).bind fun privacy =>
      (optDec fs "sra" boolOfJson).bind fun sra =>
        (optDec fs "targeting" kvListOfJson).map fun targeting =>
          ⟨privacy, sra, targeting⟩
  | _ => none

/-- Decode a slot config. -/
def slotOfJson : Json → Option SampleSlotConfig
  | .obj fs =>
    (jLookup fs "adUnit").bind fun ja =>
      (strOfJson ja).bind fun adUnit =>
        (optDec fs "format" formatOfJson).bind fun format =>
          (jLookup fs "size").bind fun js =>
            (sizeOfJson js).bind fun size =>
              (optDec fs "targeting" kvListOfJson).map fun targeting =>
                ⟨adUnit, format, size, targeting⟩
  | _ => none

/-- Decode a template config. -/
def templateOfJson : Json → Option SampleTemplateConfig
  | .obj fs =>
    (optDec fs "type" strOfJson).bind fun ty =>
      (optDec fs "target" natOfJson).map fun target => ⟨ty, target⟩
  | _ => none

/-- Decode a sample config. -/
def configOfJson : Json → Option SampleConfig
  | .obj fs =>
    (optDec fs "page" pageOfJson).bind fun page =>
      (jLookup fs "slots").bind fun js =>
        (match js with
          | .arr l => l.mapM slotOfJson
          | _ => none).bind fun slots =>
          (optDec fs "template" templateOfJson).map fun template =>
            ⟨page, slots, template⟩
  | _ => none

/-! ### UTF-8 and base64url (spec-modelled)

Modelled from the spec: the `base64url` utility module of
`src/util/base64url.ts` (missing from the sources) encodes the UTF-8 bytes
of a string in the URL-safe base64 alphabet without padding, and decodes
the inverse. -/

/-- UTF-8 bytes of a single character. -/
def utf8EncodeChar (c : Char) : List Nat :=
  let n := c.toNat
  if n < 128 then [n]
  else if n < 2048 then [192 + n / 64, 128 + n % 64]
  else if n < 65536 then [224 + n / 4096, 128 + n / 64 % 64, 128 + n % 64]
  else [240 + n / 262144, 128 + n / 4096 % 64, 128 + n / 64 % 64, 128 + n % 64]

/-- UTF-8 bytes of a character list. -/
def utf8Encode (cs : List Char) : List Nat := cs.flatMap utf8EncodeChar

/-- The character of a valid code point. -/
def mkChar (n : Nat) : Option Char :=
  if _h : n.isValidChar then some (Char.ofNat n) else none

/-- Pop one byte. -/
def take1 : List Nat → Option (Nat × List Nat)
  | b :: r => some (b, r)
  | [] => none

/-- Pop two bytes. -/
def take2 : List Nat → Option (Nat × Nat × List Nat)
  | a :: b :: r => some (a, b, r)
  | [_] => none
  | [] => none

/-- Pop three bytes. -/
def take3 : List Nat → Option (Nat × Nat × Nat × List Nat)
  | a :: b :: c :: r => some (a, b, c, r)
  | [_, _] => none
  | [_] => none
  | [] => none

/-- Whether a byte is a UTF-8 continuation byte. -/
def isCont (b : Nat) : Prop := 128 ≤ b ∧ b < 192

instance (b : Nat) : Decidable (isCont b) := by
  unfold isCont
  infer_instance

/-- Decode a UTF-8 byte sequence, fuelled to keep the recursion
structural: one unit of fuel per decoded character. -/
def utf8DecodeAux : Nat → List Nat → Option (List Char)
  | _, [] => some []
  | 0, _ :: _ => none
  | fuel + 1, b0 :: rest =>
    if b0 < 128 then (mkChar b0).bind fun c => (utf8DecodeAux fuel rest).map (c :: ·)
    else if b0 < 192 then none
    else if b0 < 224 then
      (take1 rest).bind fun p =>
        if isCont p.1 ∧ 128 ≤ (b0 - 192) * 64 + (p.1 - 128) then
          (mkChar ((b0 - 192) * 64 + (p.1 - 128))).bind fun c =>
            (utf8DecodeAux fuel p.2).map (c :: ·)
        else none
    else if b0 < 240 then
      (take2 rest).bind fun p =>
        if isCont p.1 ∧ isCont p.2.1 ∧
            2048 ≤ (b0 - 224) * 4096 + (p.1 - 128) * 64 + (p.2.1 - 128) then
          (mkChar ((b0 - 224) * 4096 + (p.1 - 128) * 64 + (p.2.1 - 128))).bind fun c =>
            (utf8DecodeAux fuel p.2.2).map (c :: ·)
        else none
    else if b0 < 248 then
      (take3 rest).bind fun p =>
        if isCont p.1 ∧ isCont p.2.1 ∧ isCont p.2.2.1 ∧
            65536 ≤ (b0 - 240) * 262144 + (p.1 - 128) * 4096 +
              (p.2.1 - 128) * 64 + (p.2.2.1 - 128) then
          (mkChar ((b0 - 240) * 262144 + (p.1 - 128) * 4096 +
              (p.2.1 - 128) * 64 + (p.2.2.1 - 128))).bind fun c =>
            (utf8DecodeAux fuel p.2.2.2).map (c :: ·)
        else none
    else none

/-- Decode a UTF-8 byte sequence. -/
def utf8Decode (l : List Nat) : Option (List Char) := utf8DecodeAux l.length l

/-- The URL-safe base64 alphabet. -/
def b64Char (n : Nat) : Char :=
  if n < 26 then Char.ofNat (65 + n)
  else if n < 52 then Char.ofNat (97 + (n - 26))
  else if n < 62 then Char.ofNat (48 + (n - 52))
  else if n = 62 then '-'
  else '_'

/-- The value of a URL-safe base64 alphabet character. -/
def b64Val (c : Char) : Option Nat :=
  if 65 ≤ c.toNat ∧ c.toNat ≤ 90 then some (c.toNat - 65)
  else if 97 ≤ c.toNat ∧ c.toNat ≤ 122 then some (c.toNat - 97 + 26)
  else if 48 ≤ c.toNat ∧ c.toNat ≤ 57 then some (c.toNat - 48 + 52)
  else if c = '-' then some 62
  else if c = '_' then some 63
  else none

/-- base64url-encode a byte list (no padding). -/
def b64EncodeChars : List Nat → List Char
  | b0 :: b1 :: b2 :: rest =>
    let n := b0 * 65536 + b1 * 256 + b2
    b64Char (n / 262144) :: b64Char (n / 4096 % 64) :: b64Char (n / 64 % 64) ::
      b64Char (n % 64) :: b64EncodeChars rest
  | [b0, b1] =>
    let n := b0 * 1024 + b1 * 4
    [b64Char (n / 4096), b64Char (n / 64 % 64), b64Char (n % 64)]
  | [b0] =>
    let n := b0 * 16
    [b64Char (n / 64), b64Char (n % 64)]
  | [] => []

/-- base64url-decode a character list (no padding). -/
def b64DecodeChars : List Char → Option (List Nat)
  | c0 :: c1 :: c2 :: c3 :: rest =>
    (b64Val c0).bind fun s0 =>
      (b64Val c1).bind fun s1 =>
        (b64Val c2).bind fun s2 =>
          (b64Val c3).bind fun s3 =>
            let n := s0 * 262144 + s1 * 4096 + s2 * 64 + s3
            (b64DecodeChars rest).map fun bs =>
              n / 65536 :: n / 256 % 256 :: n % 256 :: bs
  | [c0, c1, c2] =>
    (b64Val c0).bind fun s0 =>
      (b64Val c1).bind fun s1 =>
        (b64Val c2).bind fun s2 =>
          some [(s0 * 4096 + s1 * 64 + s2) / 1024, (s0 * 4096 + s1 * 64 + s2) / 4 % 256]
  | [c0, c1] =>
    (b64Val c0).bind fun s0 =>
      (b64Val c1).bind fun s1 => some [(s0 * 64 + s1) / 16]
  | [_] => none
  | [] => some []

/-- Modelled from the spec: `base64url.encode` of `src/util/base64url.ts`. -/
def base64urlEncode (s : String) : String :=
  String.mk (b64EncodeChars (utf8Encode s.data))

/-- Modelled from the spec: `base64url.decode` of `src/util/base64url.ts`. -/
def base64urlDecode (s : String) : Option String :=
  (b64DecodeChars s.data).bind fun bs => (utf8Decode bs).map String.mk

/-! ### Entry point (`test/configurator/index.ts`, in the sources) -/

/-- The configurator side of the URL-hash round trip: serialize the config
to JSON and base64url-encode it, the inverse of what the entry point
evaluates. -/
def encodeConfig (c : SampleConfig) : String :=
  base64urlEncode (jsonPrint (configToJson c))

/-- `JSON.parse(base64url.decode(configParam))` read back as a typed
config. -/
def decodeConfigParam (p : String) : Option SampleConfig :=
  (base64urlDecode p).bind fun s => (jsonParse s).bind configOfJson

/-- The entry point's `config` initializer:
`configParam ? JSON.parse(base64url.decode(configParam)) : {slots: []}`.
`none` models an absent parameter (and the empty string is falsy in
JavaScript); a `none` result models the uncaught exception of a failed
decode or parse. -/
def initConfig : Option String → Option SampleConfig
  | none => some { slots := [] }
  | some p => if p = "" then some { slots := [] } else decodeConfigParam p

end Codegen

namespace Codegen

/-! ### Helper lemmas -/

theorem strConcat_cons (s : String) (l : List String) :
    strConcat (s :: l) = s ++ strConcat l := rfl

theorem foldl_append_eq {α : Type} (f : α → String) (l : List α) (init : String) :
    l.foldl (fun acc x => acc ++ f x) init = init ++ strConcat (l.map f) := by
  induction l generalizing init with
  | nil => simp [strConcat]
  | cons a tl ih =>
    simp only [List.foldl_cons, List.map_cons, strConcat_cons, ih,
      String.append_assoc]

theorem digitVal_digitChar (d : Nat) (h : d < 10) :
    digitVal (digitChar d) = some d := by
  interval_cases d <;> rfl

theorem mapM_of_comp {α β : Type} (f : β → Option α) (g : α → β) (l : List α)
    (h : ∀ a ∈ l, f (g a) = some a) : (l.map g).mapM f = some l := by
  induction l with
  | nil => rfl
  | cons a tl ih =>
    simp only [List.map_cons, List.mapM_cons, h a (List.mem_cons_self a tl),
      ih fun x hx => h x (List.mem_cons_of_mem a hx), Option.bind_eq_bind,
      Option.some_bind]
    rfl

theorem natParseChars_natPrintChars (n : Nat) :
    natParseChars (natPrintChars n) = some n := by
  by_cases h0 : n = 0
  · subst h0; rfl
  · unfold natPrintChars
    rw [if_neg h0]
    unfold natParseChars
    rw [← List.map_reverse, mapM_of_comp _ _ _ fun d hd =>
      digitVal_digitChar d
        (Nat.digits_lt_base (by norm_num) (List.mem_reverse.mp hd))]
    have hne : (Nat.digits 10 n).reverse ≠ [] := by
      simp [Nat.digits_ne_nil_iff_ne_zero, h0]
    simp only [Option.bind_eq_bind, Option.some_bind, if_neg hne,
      List.reverse_reverse, Nat.ofDigits_digits]

theorem natPrint_injective {n m : Nat} (h : natPrint n = natPrint m) : n = m := by
  have hd : natPrintChars n = natPrintChars m := congrArg String.data h
  have := natParseChars_natPrintChars n
  rw [hd, natParseChars_natPrintChars m] at this
  exact (Option.some.injEq _ _ ▸ this).symm

theorem intPrint_nonneg (n : Nat) : intPrint ((n : Int)) = natPrint n := by
  unfold intPrint
  rw [if_neg (by omega)]
  simp

theorem indexOfJs_ge (l : List SampleSlotConfig) (s : SampleSlotConfig) :
    -1 ≤ indexOfJs l s := by
  induction l with
  | nil => simp [indexOfJs]
  | cons x xs ih =>
    simp only [indexOfJs]
    split
    · omega
    · split <;> omega

theorem indexOfJs_of_not_mem {l : List SampleSlotConfig} {s : SampleSlotConfig}
    (h : s ∉ l) : indexOfJs l s = -1 := by
  induction l with
  | nil => rfl
  | cons x xs ih =>
    have hx : ¬ x = s := fun he => h (List.mem_cons.mpr (Or.inl he.symm))
    simp [indexOfJs, hx, ih fun hm => h (List.mem_cons_of_mem x hm)]

theorem indexOfJs_nodup_get {l : List SampleSlotConfig} (hnd : l.Nodup)
    (i : Nat) (hi : i < l.length) :
    indexOfJs l (l.get ⟨i, hi⟩) = (i : Int) := by
  induction l generalizing i with
  | nil => simp at hi
  | cons x xs ih =>
    obtain ⟨hx, hxs⟩ := List.nodup_cons.mp hnd
    match i with
    | 0 => simp [indexOfJs]
    | i + 1 =>
      have hi' : i < xs.length := by simpa using hi
      have hget : (x :: xs).get ⟨i + 1, hi⟩ = xs.get ⟨i, hi'⟩ := rfl
      rw [hget]
      have hne : ¬ x = xs.get ⟨i, hi'⟩ := by
        intro he
        exact hx (by rw [he]; exact List.get_mem xs i hi')
      simp only [indexOfJs]
      rw [if_neg hne, ih hxs i hi']
      rw [if_neg (by omega)]
      push_cast
      ring

theorem findIndexJs_ge (p : SampleSlotConfig → Bool) (l : List SampleSlotConfig) :
    -1 ≤ findIndexJs p l := by
  induction l with
  | nil => simp [findIndexJs]
  | cons x xs ih =>
    simp only [findIndexJs]
    split
    · omega
    · split <;> omega

theorem findIndexJs_eq_neg_one {p : SampleSlotConfig → Bool}
    {l : List SampleSlotConfig} :
    findIndexJs p l = -1 ↔ ∀ x ∈ l, p x = false := by
  induction l with
  | nil => simp [findIndexJs]
  | cons x xs ih =>
    simp only [findIndexJs]
    constructor
    · intro h y hy
      by_cases hpx : p x
      · rw [if_pos hpx] at h; omega
      · rw [if_neg hpx] at h
        rcases List.mem_cons.mp hy with rfl | hy'
        · simpa using hpx
        · refine ih.mp ?_ y hy'
          by_cases hr : findIndexJs p xs = -1
          · exact hr
          · rw [if_neg hr] at h
            have := findIndexJs_ge p xs
            omega
    · intro h
      rw [if_neg (by simp [h x (List.mem_cons_self x xs)]), ih.mpr
        fun y hy => h y (List.mem_cons_of_mem x hy)]
      rfl

theorem listGetInt_nil (i : Int) : listGetInt [] i = none := by
  unfold listGetInt
  split <;> simp

theorem findIndexJs_find? {p : SampleSlotConfig → Bool} {l : List SampleSlotConfig}
    (h : findIndexJs p l ≠ -1) :
    ∃ s, l.find? p = some s ∧ listGetInt l (findIndexJs p l) = some s ∧
      0 ≤ findIndexJs p l ∧ findIndexJs p l < (l.length : Int) := by
  induction l with
  | nil => exact absurd rfl h
  | cons x xs ih =>
    by_cases hpx : p x
    · refine ⟨x, List.find?_cons_of_pos xs hpx, ?_, ?_, ?_⟩ <;>
        simp [findIndexJs, hpx, listGetInt]
    · have hx : findIndexJs p (x :: xs) =
          (if findIndexJs p xs = -1 then -1 else findIndexJs p xs + 1) := by
        simp [findIndexJs, hpx]
      by_cases hr : findIndexJs p xs = -1
      · rw [hx, if_pos hr] at h; exact absurd rfl h
      · obtain ⟨s, hfind, hget, h0, hlt⟩ := ih hr
        rw [hx, if_neg hr]
        refine ⟨s, by rw [List.find?_cons_of_neg xs hpx]; exact hfind, ?_, by omega, ?_⟩
        · unfold listGetInt at hget ⊢
          rw [if_neg (by omega)]
          rw [if_neg (by omega)] at hget
          have htn : (findIndexJs p xs + 1).toNat = (findIndexJs p xs).toNat + 1 := by
            omega
          rw [htn, List.getElem?_cons_succ]
          exact hget
        · simp only [List.length_cons]
          push_cast
          omega

theorem listGetInt_last (l : List SampleSlotConfig) (h : l ≠ []) :
    listGetInt l ((l.length : Int) - 1) = some (l.getLast h) := by
  have hlen : 0 < l.length := List.length_pos.mpr h
  unfold listGetInt
  rw [if_neg (by omega)]
  have htn : ((l.length : Int) - 1).toNat = l.length - 1 := by omega
  rw [htn, ← List.getLast?_eq_getElem?, List.getLast?_eq_getLast l h]

theorem listGetInt_isSome (l : List SampleSlotConfig) (i : Int) :
    (listGetInt l i).isSome = true ↔ 0 ≤ i ∧ i < (l.length : Int) := by
  unfold listGetInt
  split
  · simp
    omega
  · rename_i hn
    constructor
    · intro h
      by_contra hlt
      rw [List.getElem?_eq_none (by omega)] at h
      simp at h
    · intro hb
      rw [List.getElem?_eq_getElem (by omega)]
      simp

end Codegen

namespace Codegen

theorem empty_append_str (s : String) : "" ++ s = s := by
  apply String.ext
  rw [String.data_append]
  rfl

theorem append_service_eq (X : String) :
    X ++ "." ++ apiAddService ++ ";" = X ++ ".addService(googletag.pubads());" := by
  have h : ("." ++ apiAddService) ++ ";" = ".addService(googletag.pubads());" := rfl
  rw [String.append_assoc X, String.append_assoc X, h]

end Codegen

open Codegen

/-- C1 (amended): for every config, when the page-level
single-request-architecture flag is true and `config.slots` is non-empty,
`displayAll` emits the display fragment of a single slot of `config.slots`;
when the flag is absent or false it emits the display fragments of every
slot, concatenated in list order.  (The non-emptiness hypothesis is forced
by the counterexample: with `sra` true and no slots, the slot lookup is out
of range and no display code is produced.) -/
theorem c1_displayAll (config : SampleConfig) :
    (sraEnabled config = true → config.slots ≠ [] →
      ∃ s ∈ config.slots, displayAll config = some (display config s)) ∧
    (sraEnabled config = false →
      displayAll config = some (strConcat (config.slots.map (display config)))) := by
  constructor
  · intro hs hne
    by_cases hfi : findIndexJs (fun s => !s.format.isSome) config.slots = -1
    · refine ⟨config.slots.getLast hne, List.getLast_mem hne, ?_⟩
      simp only [displayAll, hs, eq_self_iff_true, if_true, sraIndex, if_pos hfi,
        listGetInt_last config.slots hne, Option.map_some']
    · obtain ⟨s, hfind, hget, h0, hlt⟩ := findIndexJs_find? hfi
      refine ⟨s, List.mem_of_find?_eq_some hfind, ?_⟩
      simp only [displayAll, hs, eq_self_iff_true, if_true, sraIndex, if_neg hfi,
        hget, Option.map_some']
  · intro hs
    rw [displayAll, if_neg (by simp [hs]), foldl_append_eq, empty_append_str]

/-- C1 counterexample: the claim as stated fails on the config with
`page.sra = true` and an empty slot list: `displayAll` produces no display
code at all (the JavaScript crashes reading `undefined`), in particular not
the display fragment of exactly one slot. -/
theorem c1_counterexample :
    sraEnabled { page := some { sra := some true }, slots := [] } = true ∧
    displayAll { page := some { sra := some true }, slots := [] } = none ∧
    ¬ ∃ s ∈ (SampleConfig.mk (some { sra := some true }) [] none).slots,
        displayAll { page := some { sra := some true }, slots := [] } =
          some (display { page := some { sra := some true }, slots := [] } s) := by
  refine ⟨rfl, rfl, ?_⟩
  rintro ⟨s, hs, -⟩
  simp at hs

/-- C1 witness: a single-slot SRA config where `displayAll` emits one
display fragment, and a two-slot non-SRA config where it emits the ordered
concatenation. -/
theorem c1_displayAll_witness :
    (∃ s ∈ (SampleConfig.mk (some { sra := some true })
        [{ adUnit := "a", size := .single .fluid }] none).slots,
      displayAll (SampleConfig.mk (some { sra := some true })
          [{ adUnit := "a", size := .single .fluid }] none) =
        some (display (SampleConfig.mk (some { sra := some true })
          [{ adUnit := "a", size := .single .fluid }] none) s)) ∧
    displayAll (SampleConfig.mk none
        [{ adUnit := "a", size := .single .fluid },
         { adUnit := "b", size := .single .fluid }] none) =
      some (strConcat ((SampleConfig.mk none
        [{ adUnit := "a", size := .single .fluid },
         { adUnit := "b", size := .single .fluid }] none).slots.map
          (display (SampleConfig.mk none
            [{ adUnit := "a", size := .single .fluid },
             { adUnit := "b", size := .single .fluid }] none)))) :=
  ⟨(c1_displayAll _).1 rfl (by decide), (c1_displayAll _).2 rfl⟩

/-- C3: every code-generation operation is deterministic: two runs on equal
(config, slot, definition-string) inputs produce equal output strings.  The
embedding makes each operation a pure function of exactly those inputs, so
the output depends on nothing else. -/
theorem c3_codegen_deterministic (c₁ c₂ : SampleConfig) (s₁ s₂ : SampleSlotConfig)
    (d₁ d₂ : String) (hc : c₁ = c₂) (hs : s₁ = s₂) (hd : d₁ = d₂) :
    declareSlot c₁ s₁ = declareSlot c₂ s₂ ∧
    defineSlot c₁ s₁ = defineSlot c₂ s₂ ∧
    defineOutOfPageSlot c₁ s₁ = defineOutOfPageSlot c₂ s₂ ∧
    display c₁ s₁ = display c₂ s₂ ∧
    displayAll c₁ = displayAll c₂ ∧
    enableServices = enableServices ∧
    addInlineSlotSettings s₁ d₁ = addInlineSlotSettings s₂ d₂ := by
  subst hc
  subst hs
  subst hd
  exact ⟨rfl, rfl, rfl, rfl, rfl, rfl, rfl⟩

/-- C3 witness: the determinism theorem applied at a concrete config, slot
and definition string. -/
theorem c3_codegen_deterministic_witness :
    declareSlot (SampleConfig.mk none [{ adUnit := "a", size := .single .fluid }] none)
        { adUnit := "a", size := .single .fluid } =
      declareSlot (SampleConfig.mk none [{ adUnit := "a", size := .single .fluid }] none)
        { adUnit := "a", size := .single .fluid } ∧
    defineSlot (SampleConfig.mk none [{ adUnit := "a", size := .single .fluid }] none)
        { adUnit := "a", size := .single .fluid } =
      defineSlot (SampleConfig.mk none [{ adUnit := "a", size := .single .fluid }] none)
        { adUnit := "a", size := .single .fluid } ∧
    defineOutOfPageSlot (SampleConfig.mk none [{ adUnit := "a", size := .single .fluid }] none)
        { adUnit := "a", size := .single .fluid } =
      defineOutOfPageSlot (SampleConfig.mk none [{ adUnit := "a", size := .single .fluid }] none)
        { adUnit := "a", size := .single .fluid } ∧
    display (SampleConfig.mk none [{ adUnit := "a", size := .single .fluid }] none)
        { adUnit := "a", size := .single .fluid } =
      display (SampleConfig.mk none [{ adUnit := "a", size := .single .fluid }] none)
        { adUnit := "a", size := .single .fluid } ∧
    displayAll (SampleConfig.mk none [{ adUnit := "a", size := .single .fluid }] none) =
      displayAll (SampleConfig.mk none [{ adUnit := "a", size := .single .fluid }] none) ∧
    enableServices = enableServices ∧
    addInlineSlotSettings { adUnit := "a", size := .single .fluid } "D" =
      addInlineSlotSettings { adUnit := "a", size := .single .fluid } "D" :=
  c3_codegen_deterministic _ _ _ _ _ _ rfl rfl rfl

/-- C4: in the `slotOnload` callback generated for an out-of-page slot, the
status update is selected by the slot's format: INTERSTITIAL sets
`innerHTML` (via `statusUpdateHtml`) to a hyperlink whose text is
`<format> is loaded.`; TOP_ANCHOR sets `innerText` (via `statusUpdate`) to
`<format> is loaded. Scroll page to activate.`; every other format sets
`innerText` to `<format> is loaded.`. -/
theorem c4_slotOnloadCallback (config : SampleConfig) (slot : SampleSlotConfig)
    (f : OutOfPageFormat) (hf : slot.format = some f) :
    (f = .INTERSTITIAL →
      getSlotOnloadCallback config slot =
        "\n    if(" ++ getSlotIdentifer config slot ++ " === event.slot) \x7b\n      " ++
          statusUpdateHtml (getSlotIdentifer config slot)
            ("<a href=\"https://www.example.com\">" ++
              (outOfPageFormatNames f ++ " is loaded.") ++ "</a>") ++
          ";\n    \x7d\n  ") ∧
    (f = .TOP_ANCHOR →
      getSlotOnloadCallback config slot =
        "\n    if(" ++ getSlotIdentifer config slot ++ " === event.slot) \x7b\n      " ++
          statusUpdate (getSlotIdentifer config slot)
            ((outOfPageFormatNames f ++ " is loaded.") ++ " Scroll page to activate.") ++
          ";\n    \x7d\n  ") ∧
    (f ≠ .INTERSTITIAL → f ≠ .TOP_ANCHOR →
      getSlotOnloadCallback config slot =
        "\n    if(" ++ getSlotIdentifer config slot ++ " === event.slot) \x7b\n      " ++
          statusUpdate (getSlotIdentifer config slot)
            (outOfPageFormatNames f ++ " is loaded.") ++
          ";\n    \x7d\n  ") := by
  refine ⟨fun h1 => ?_, fun h2 => ?_, fun hni hnt => ?_⟩
  · subst h1
    simp only [getSlotOnloadCallback, hf]
    rfl
  · subst h2
    simp only [getSlotOnloadCallback, hf]
    rfl
  · cases f with
    | INTERSTITIAL => exact absurd rfl hni
    | TOP_ANCHOR => exact absurd rfl hnt
    | BOTTOM_ANCHOR =>
      simp only [getSlotOnloadCallback, hf]
      rfl
    | GAME_MANUAL_INTERSTITIAL =>
      simp only [getSlotOnloadCallback, hf]
      rfl
    | REWARDED =>
      simp only [getSlotOnloadCallback, hf]
      rfl

/-- C4 witness: the INTERSTITIAL case of the callback theorem at a concrete
config and slot. -/
theorem c4_slotOnloadCallback_witness :
    getSlotOnloadCallback
        (SampleConfig.mk none
          [{ adUnit := "a", format := some .INTERSTITIAL, size := .single .fluid }] none)
        { adUnit := "a", format := some .INTERSTITIAL, size := .single .fluid } =
      "\n    if(" ++
        getSlotIdentifer
          (SampleConfig.mk none
            [{ adUnit := "a", format := some .INTERSTITIAL, size := .single .fluid }] none)
          { adUnit := "a", format := some .INTERSTITIAL, size := .single .fluid } ++
        " === event.slot) \x7b\n      " ++
        statusUpdateHtml
          (getSlotIdentifer
            (SampleConfig.mk none
              [{ adUnit := "a", format := some .INTERSTITIAL, size := .single .fluid }] none)
            { adUnit := "a", format := some .INTERSTITIAL, size := .single .fluid })
          ("<a href=\"https://www.example.com\">" ++
            (outOfPageFormatNames .INTERSTITIAL ++ " is loaded.") ++ "</a>") ++
        ";\n    \x7d\n  " :=
  (c4_slotOnloadCallback _ _ .INTERSTITIAL rfl).1 rfl

/-- C6: `addInlineSlotSettings` returns the definition string followed by
one chained `.setTargeting(key, value)` call per targeting entry, in list
order, followed by `.addService(googletag.pubads());`; when the targeting
list is absent only the `addService` call is appended. -/
theorem c6_addInlineSlotSettings (config : SampleSlotConfig) (d : String) :
    addInlineSlotSettings config d =
      d ++ strConcat ((config.targeting.getD []).map
          fun kv => "." ++ apiSetTargeting kv) ++
        ".addService(googletag.pubads());" ∧
    (config.targeting = none →
      addInlineSlotSettings config d = d ++ ".addService(googletag.pubads());") := by
  have hfun : (fun (acc : String) (kv : SampleTargetingKV) =>
      acc ++ "." ++ apiSetTargetingWith sanitizeJs kv) =
      fun acc kv => acc ++ ("." ++ apiSetTargeting kv) := by
    funext acc kv
    rw [String.append_assoc]
    rfl
  constructor
  · show addInlineSlotSettingsWith sanitizeJs config d = _
    unfold addInlineSlotSettingsWith
    rw [hfun, foldl_append_eq, append_service_eq]
  · intro h
    show addInlineSlotSettingsWith sanitizeJs config d = _
    unfold addInlineSlotSettingsWith
    rw [h]
    simp only [Option.getD_none, List.foldl_nil]
    exact append_service_eq d

/-- C6 witness: the theorem applied at a slot with two targeting entries and
at a slot without targeting. -/
theorem c6_addInlineSlotSettings_witness :
    addInlineSlotSettings
        { adUnit := "a", size := .single .fluid,
          targeting := some [⟨"k", .one "v"⟩, ⟨"k2", .many ["x", "y"]⟩] } "D" =
      "D" ++ strConcat (((some [⟨"k", .one "v"⟩,
          (⟨"k2", .many ["x", "y"]⟩ : SampleTargetingKV)] :
            Option (List SampleTargetingKV)).getD []).map
          fun kv => "." ++ apiSetTargeting kv) ++
        ".addService(googletag.pubads());" ∧
    addInlineSlotSettings { adUnit := "a", size := .single .fluid } "D" =
      "D" ++ ".addService(googletag.pubads());" :=
  ⟨(c6_addInlineSlotSettings
      { adUnit := "a", size := .single .fluid,
        targeting := some [⟨"k", .one "v"⟩, ⟨"k2", .many ["x", "y"]⟩] } "D").1,
   (c6_addInlineSlotSettings { adUnit := "a", size := .single .fluid } "D").2 rfl⟩

/-- C8: in a config whose slot list is duplicate-free, `getSlotIdentifer`
maps the slot at zero-based position `i` to the string `slot` followed by
the decimal rendering of `i + 1`, so distinct positions receive distinct
identifiers; a slot that does not occur in `config.slots` gets `slot0`. -/
theorem c8_getSlotIdentifer (config : SampleConfig) :
    (config.slots.Nodup →
      (∀ i (hi : i < config.slots.length),
          getSlotIdentifer config (config.slots.get ⟨i, hi⟩) =
            "slot" ++ natPrint (i + 1)) ∧
      (∀ i j (hi : i < config.slots.length) (hj : j < config.slots.length),
          i ≠ j →
          getSlotIdentifer config (config.slots.get ⟨i, hi⟩) ≠
            getSlotIdentifer config (config.slots.get ⟨j, hj⟩))) ∧
    (∀ s, s ∉ config.slots → getSlotIdentifer config s = "slot0") := by
  have hpos : config.slots.Nodup → ∀ i (hi : i < config.slots.length),
      getSlotIdentifer config (config.slots.get ⟨i, hi⟩) =
        "slot" ++ natPrint (i + 1) := by
    intro hnd i hi
    unfold getSlotIdentifer
    rw [indexOfJs_nodup_get hnd i hi]
    have hcast : ((i : Int) + 1) = ((i + 1 : Nat) : Int) := by push_cast; ring
    rw [hcast, intPrint_nonneg]
  refine ⟨fun hnd => ⟨hpos hnd, ?_⟩, ?_⟩
  · intro i j hi hj hij heq
    rw [hpos hnd i hi, hpos hnd j hj] at heq
    have hdata := congrArg String.data heq
    rw [String.data_append, String.data_append] at hdata
    have htail := List.append_cancel_left hdata
    have := natPrint_injective (String.ext htail)
    omega
  · intro s hs
    unfold getSlotIdentifer
    rw [indexOfJs_of_not_mem hs]
    rfl

/-- C8 witness: the identifier theorem at a concrete two-slot config with
distinct slots, and at a slot absent from the config. -/
theorem c8_getSlotIdentifer_witness :
    getSlotIdentifer
        (SampleConfig.mk none [{ adUnit := "a", size := .single .fluid },
          { adUnit := "b", size := .single .fluid }] none)
        ((SampleConfig.mk none [{ adUnit := "a", size := .single .fluid },
          { adUnit := "b", size := .single .fluid }] none).slots.get
            ⟨1, by decide⟩) = "slot" ++ natPrint 2 ∧
    getSlotIdentifer
        (SampleConfig.mk none [{ adUnit := "a", size := .single .fluid },
          { adUnit := "b", size := .single .fluid }] none)
        { adUnit := "c", size := .single .fluid } = "slot0" :=
  ⟨((c8_getSlotIdentifer _).1 (by decide)).1 1 (by decide),
   (c8_getSlotIdentifer _).2 { adUnit := "c", size := .single .fluid } (by decide)⟩

/-- C9: when `config.page.sra` is true and `config.slots` is non-empty,
`displayAll` generates display code for the first slot in the list without
an out-of-page format; when every slot has an out-of-page format it
generates display code for the last slot in the list. -/
theorem c9_displayAll_sra_choice (config : SampleConfig)
    (hs : sraEnabled config = true) (hne : config.slots ≠ []) :
    (∀ s, config.slots.find? (fun t => !t.format.isSome) = some s →
        displayAll config = some (display config s)) ∧
    ((∀ s ∈ config.slots, s.format.isSome = true) →
        displayAll config = some (display config (config.slots.getLast hne))) := by
  constructor
  · intro s hfind
    have hfi : findIndexJs (fun t => !t.format.isSome) config.slots ≠ -1 := by
      intro heq
      have hall := findIndexJs_eq_neg_one.mp heq
      have hps := List.find?_some hfind
      rw [hall s (List.mem_of_find?_eq_some hfind)] at hps
      exact Bool.false_ne_true hps
    obtain ⟨s', hfind', hget, h0, hlt⟩ := findIndexJs_find? hfi
    have hss : s' = s := by
      rw [hfind] at hfind'
      exact (Option.some.inj hfind').symm
    subst hss
    simp only [displayAll, hs, eq_self_iff_true, if_true, sraIndex, if_neg hfi,
      hget, Option.map_some']
  · intro hall
    have hfi : findIndexJs (fun t => !t.format.isSome) config.slots = -1 :=
      findIndexJs_eq_neg_one.mpr fun x hx => by simp [hall x hx]
    simp only [displayAll, hs, eq_self_iff_true, if_true, sraIndex, if_pos hfi,
      listGetInt_last config.slots hne, Option.map_some']

/-- C9 witness: the choice theorem at an SRA config whose second slot is the
first static one, and at an SRA config whose slots all have an out-of-page
format. -/
theorem c9_displayAll_sra_choice_witness :
    displayAll (SampleConfig.mk (some { sra := some true })
        [{ adUnit := "a", format := some .REWARDED, size := .single .fluid },
         { adUnit := "b", size := .single .fluid }] none) =
      some (display (SampleConfig.mk (some { sra := some true })
        [{ adUnit := "a", format := some .REWARDED, size := .single .fluid },
         { adUnit := "b", size := .single .fluid }] none)
        { adUnit := "b", size := .single .fluid }) ∧
    displayAll (SampleConfig.mk (some { sra := some true })
        [{ adUnit := "a", format := some .REWARDED, size := .single .fluid },
         { adUnit := "b", format := some .TOP_ANCHOR, size := .single .fluid }] none) =
      some (display (SampleConfig.mk (some { sra := some true })
        [{ adUnit := "a", format := some .REWARDED, size := .single .fluid },
         { adUnit := "b", format := some .TOP_ANCHOR, size := .single .fluid }] none)
        ((SampleConfig.mk (some { sra := some true })
          [{ adUnit := "a", format := some .REWARDED, size := .single .fluid },
           { adUnit := "b", format := some .TOP_ANCHOR, size := .single .fluid }] none).slots.getLast
            (by decide))) :=
  ⟨(c9_displayAll_sra_choice (SampleConfig.mk (some { sra := some true })
        [{ adUnit := "a", format := some .REWARDED, size := .single .fluid },
         { adUnit := "b", size := .single .fluid }] none) rfl (by decide)).1
      { adUnit := "b", size := .single .fluid } (by decide),
   (c9_displayAll_sra_choice (SampleConfig.mk (some { sra := some true })
        [{ adUnit := "a", format := some .REWARDED, size := .single .fluid },
         { adUnit := "b", format := some .TOP_ANCHOR, size := .single .fluid }] none)
      rfl (by decide)).2 (by decide)⟩

/-- C10: when `config.slots` is non-empty the index computed by the
single-request-architecture branch of `displayAll` is within bounds and the
out-of-range lookup is unreachable; with an empty slot list the computed
index is `-1` mapped to `length - 1 = -1`, the lookup misses, and (with
`sra` true) `displayAll` produces no code. -/
theorem c10_sraIndex_bounds (config : SampleConfig) :
    (config.slots ≠ [] →
      0 ≤ sraIndex config ∧ sraIndex config < (config.slots.length : Int) ∧
        (listGetInt config.slots (sraIndex config)).isSome = true ∧
        (sraEnabled config = true → (displayAll config).isSome = true)) ∧
    (config.slots = [] →
      sraIndex config = -1 ∧ listGetInt config.slots (sraIndex config) = none ∧
        (sraEnabled config = true → displayAll config = none)) := by
  constructor
  · intro hne
    have hb : 0 ≤ sraIndex config ∧ sraIndex config < (config.slots.length : Int) := by
      by_cases hfi : findIndexJs (fun s => !s.format.isSome) config.slots = -1
      · have hlen : 0 < config.slots.length := List.length_pos.mpr hne
        simp only [sraIndex, if_pos hfi]
        omega
      · obtain ⟨s, _, _, h0, hlt⟩ := findIndexJs_find? hfi
        simp only [sraIndex, if_neg hfi]
        exact ⟨h0, hlt⟩
    have hsome := (listGetInt_isSome config.slots (sraIndex config)).mpr hb
    refine ⟨hb.1, hb.2, hsome, fun hs => ?_⟩
    obtain ⟨v, hv⟩ := Option.isSome_iff_exists.mp hsome
    simp only [displayAll, hs, eq_self_iff_true, if_true, hv, Option.map_some',
      Option.isSome_some]
  · intro hemp
    have h1 : sraIndex config = -1 := by
      simp only [sraIndex, hemp, findIndexJs, List.length_nil]
      norm_num
    refine ⟨h1, ?_, fun hs => ?_⟩
    · rw [h1, hemp, listGetInt_nil]
    · simp only [displayAll, hs, eq_self_iff_true, if_true, h1, hemp,
        listGetInt_nil, Option.map_none']

/-- C10 witness: the bounds theorem at a non-empty SRA config and at the
empty-slot SRA config. -/
theorem c10_sraIndex_bounds_witness :
    (0 ≤ sraIndex (SampleConfig.mk (some { sra := some true })
        [{ adUnit := "a", size := .single .fluid }] none) ∧
      sraIndex (SampleConfig.mk (some { sra := some true })
        [{ adUnit := "a", size := .single .fluid }] none) <
        ((SampleConfig.mk (some { sra := some true })
          [{ adUnit := "a", size := .single .fluid }] none).slots.length : Int) ∧
      (listGetInt (SampleConfig.mk (some { sra := some true })
          [{ adUnit := "a", size := .single .fluid }] none).slots
        (sraIndex (SampleConfig.mk (some { sra := some true })
          [{ adUnit := "a", size := .single .fluid }] none))).isSome = true ∧
      (sraEnabled (SampleConfig.mk (some { sra := some true })
          [{ adUnit := "a", size := .single .fluid }] none) = true →
        (displayAll (SampleConfig.mk (some { sra := some true })
          [{ adUnit := "a", size := .single .fluid }] none)).isSome = true)) ∧
    (sraIndex (SampleConfig.mk (some { sra := some true }) [] none) = -1 ∧
      listGetInt (SampleConfig.mk (some { sra := some true }) [] none).slots
        (sraIndex (SampleConfig.mk (some { sra := some true }) [] none)) = none ∧
      (sraEnabled (SampleConfig.mk (some { sra := some true }) [] none) = true →
        displayAll (SampleConfig.mk (some { sra := some true }) [] none) = none)) :=
  ⟨(c10_sraIndex_bounds _).1 (by decide),
   (c10_sraIndex_bounds _).2 rfl⟩

/-- C5: every user-supplied value embedded into generated code — the
slot's ad unit path, its size, and each targeting key and value — enters
the output of `api.defineSlot`, `api.defineOutOfPageSlot`,
`api.setTargeting` and `addInlineSlotSettings` only through `sanitizeJs`:
any two sanitizers agreeing on those values (with the non-user-supplied
format equal) produce identical output, even on inputs whose raw strings
differ, and no other transformation of the inputs is applied. -/
theorem c5_sanitize_noninterference (san₁ san₂ : JsVal → String)
    (s₁ s₂ : SampleSlotConfig) (id d : String)
    (hAd : san₁ (.str s₁.adUnit) = san₂ (.str s₂.adUnit))
    (hSize : san₁ (sizeVal s₁.size) = san₂ (sizeVal s₂.size))
    (hFmt : s₁.format = s₂.format)
    (hTarg : List.Forall₂
        (fun kv₁ kv₂ => san₁ (.str kv₁.key) = san₂ (.str kv₂.key) ∧
          san₁ (tvVal kv₁.value) = san₂ (tvVal kv₂.value))
        (s₁.targeting.getD []) (s₂.targeting.getD [])) :
    apiDefineSlotWith san₁ s₁ id = apiDefineSlotWith san₂ s₂ id ∧
    apiDefineOutOfPageSlotWith san₁ s₁ = apiDefineOutOfPageSlotWith san₂ s₂ ∧
    (∀ kv₁ kv₂, san₁ (.str kv₁.key) = san₂ (.str kv₂.key) →
        san₁ (tvVal kv₁.value) = san₂ (tvVal kv₂.value) →
        apiSetTargetingWith san₁ kv₁ = apiSetTargetingWith san₂ kv₂) ∧
    addInlineSlotSettingsWith san₁ s₁ d = addInlineSlotSettingsWith san₂ s₂ d := by
  refine ⟨?_, ?_, fun kv₁ kv₂ h1 h2 => ?_, ?_⟩
  · unfold apiDefineSlotWith
    rw [hAd, hSize]
  · unfold apiDefineOutOfPageSlotWith
    rw [hAd, hFmt]
  · unfold apiSetTargetingWith
    rw [h1, h2]
  · unfold addInlineSlotSettingsWith
    have key : ∀ (l₁ l₂ : List SampleTargetingKV),
        List.Forall₂
          (fun kv₁ kv₂ => san₁ (.str kv₁.key) = san₂ (.str kv₂.key) ∧
            san₁ (tvVal kv₁.value) = san₂ (tvVal kv₂.value)) l₁ l₂ →
        ∀ init : String,
          l₁.foldl (fun acc kv => acc ++ "." ++ apiSetTargetingWith san₁ kv) init =
          l₂.foldl (fun acc kv => acc ++ "." ++ apiSetTargetingWith san₂ kv) init := by
      intro l₁ l₂ hF
      induction hF with
      | nil => intro init; rfl
      | @cons a b tl₁ tl₂ hab htl ih =>
        intro init
        simp only [List.foldl_cons]
        have hset : apiSetTargetingWith san₁ a = apiSetTargetingWith san₂ b := by
          unfold apiSetTargetingWith
          rw [hab.1, hab.2]
        rw [hset]
        exact ih _
    rw [key _ _ hTarg d]

/-- C5 witness: two sanitizers and two slots whose raw ad unit paths differ
but whose sanitized values agree produce the same `api.defineSlot` output. -/
theorem c5_sanitize_noninterference_witness :
    apiDefineSlotWith (fun _ => "S")
        { adUnit := "a", size := .single .fluid } "slot1" =
      apiDefineSlotWith (fun v => match v with | .num 7 => "T" | _ => "S")
        { adUnit := "b", size := .single .fluid } "slot1" :=
  (c5_sanitize_noninterference (fun _ => "S")
    (fun v => match v with | .num 7 => "T" | _ => "S")
    { adUnit := "a", size := .single .fluid }
    { adUnit := "b", size := .single .fluid }
    "slot1" "D" rfl rfl rfl List.Forall₂.nil).1

namespace Codegen

/-! ### Character and UTF-8 lemmas -/

theorem mk_data_str (s : String) : String.mk s.data = s := by
  cases s
  rfl

theorem char_toNat_ofNat {n : Nat} (h : n.isValidChar) :
    (Char.ofNat n).toNat = n := by
  simp [Char.ofNat, h, Char.ofNatAux, Char.toNat, UInt32.toNat, BitVec.toNat_ofNatLt]

theorem char_toNat_lt (c : Char) : c.toNat < 1114112 := by
  have h : c.toNat.isValidChar := c.valid
  rcases h with h | h
  · omega
  · omega

theorem mkChar_toNat (c : Char) : mkChar c.toNat = some c := by
  unfold mkChar
  rw [dif_pos (show c.toNat.isValidChar from c.valid), Char.ofNat_toNat]

theorem utf8EncodeChar_lt (c : Char) : ∀ b ∈ utf8EncodeChar c, b < 256 := by
  intro b hb
  have hlt := char_toNat_lt c
  simp only [utf8EncodeChar] at hb
  split at hb
  · simp at hb
    omega
  · split at hb
    · simp at hb
      rcases hb with rfl | rfl <;> omega
    · split at hb
      · simp at hb
        rcases hb with rfl | rfl | rfl <;> omega
      · simp at hb
        rcases hb with rfl | rfl | rfl | rfl <;> omega

theorem utf8DecodeAux_nil (fuel : Nat) : utf8DecodeAux fuel [] = some [] := by
  cases fuel <;> rfl

theorem utf8DecodeAux_encodeChar (c : Char) (fuel : Nat) (bs : List Nat) :
    utf8DecodeAux (fuel + 1) (utf8EncodeChar c ++ bs) =
      (utf8DecodeAux fuel bs).map (c :: ·) := by
  have hval : c.toNat.isValidChar := c.valid
  have hlt := char_toNat_lt c
  unfold utf8EncodeChar
  by_cases h1 : c.toNat < 128
  · rw [if_pos h1]
    simp only [List.cons_append, List.nil_append]
    rw [utf8DecodeAux, if_pos h1, mkChar_toNat]
    rfl
  · by_cases h2 : c.toNat < 2048
    · rw [if_neg h1, if_pos h2]
      simp only [List.cons_append, List.nil_append]
      rw [utf8DecodeAux, if_neg (by omega), if_neg (by omega), if_pos (by omega)]
      show ((take1 _).bind fun p => _) = _
      rw [take1]
      show (if isCont (128 + c.toNat % 64) ∧ _ then _ else _) = _
      rw [if_pos (by dsimp only; unfold isCont; omega)]
      have hn : (192 + c.toNat / 64 - 192) * 64 + (128 + c.toNat % 64 - 128) =
          c.toNat := by omega
      show ((mkChar ((192 + c.toNat / 64 - 192) * 64 + (128 + c.toNat % 64 - 128))).bind
        fun cc => (utf8DecodeAux fuel bs).map (cc :: ·)) = _
      rw [hn, mkChar_toNat]
      rfl
    · by_cases h3 : c.toNat < 65536
      · rw [if_neg h1, if_neg h2, if_pos h3]
        simp only [List.cons_append, List.nil_append]
        rw [utf8DecodeAux, if_neg (by omega), if_neg (by omega), if_neg (by omega),
          if_pos (by omega)]
        show ((take2 _).bind fun p => _) = _
        rw [take2]
        show (if isCont (128 + c.toNat / 64 % 64) ∧ _ then _ else _) = _
        rw [if_pos (by dsimp only; unfold isCont; omega)]
        have hn : (224 + c.toNat / 4096 - 224) * 4096 +
            (128 + c.toNat / 64 % 64 - 128) * 64 + (128 + c.toNat % 64 - 128) =
            c.toNat := by omega
        show ((mkChar ((224 + c.toNat / 4096 - 224) * 4096 +
            (128 + c.toNat / 64 % 64 - 128) * 64 + (128 + c.toNat % 64 - 128))).bind
          fun cc => (utf8DecodeAux fuel bs).map (cc :: ·)) = _
        rw [hn, mkChar_toNat]
        rfl
      · rw [if_neg h1, if_neg h2, if_neg h3]
        simp only [List.cons_append, List.nil_append]
        rw [utf8DecodeAux, if_neg (by omega), if_neg (by omega), if_neg (by omega),
          if_neg (by omega), if_pos (by omega)]
        show ((take3 _).bind fun p => _) = _
        rw [take3]
        show (if isCont (128 + c.toNat / 4096 % 64) ∧ _ then _ else _) = _
        rw [if_pos (by dsimp only; unfold isCont; omega)]
        have hn : (240 + c.toNat / 262144 - 240) * 262144 +
            (128 + c.toNat / 4096 % 64 - 128) * 4096 +
            (128 + c.toNat / 64 % 64 - 128) * 64 + (128 + c.toNat % 64 - 128) =
            c.toNat := by omega
        show ((mkChar ((240 + c.toNat / 262144 - 240) * 262144 +
            (128 + c.toNat / 4096 % 64 - 128) * 4096 +
            (128 + c.toNat / 64 % 64 - 128) * 64 + (128 + c.toNat % 64 - 128))).bind
          fun cc => (utf8DecodeAux fuel bs).map (cc :: ·)) = _
        rw [hn, mkChar_toNat]
        rfl

theorem utf8EncodeChar_ne_nil (c : Char) : utf8EncodeChar c ≠ [] := by
  simp only [utf8EncodeChar]
  split
  · simp
  · split
    · simp
    · split <;> simp

theorem utf8_roundtrip_aux (cs : List Char) :
    ∀ fuel, cs.length ≤ fuel → utf8DecodeAux fuel (utf8Encode cs) = some cs := by
  induction cs with
  | nil =>
    intro fuel _
    simp only [utf8Encode, List.flatMap_nil, utf8DecodeAux_nil]
  | cons c tl ih =>
    intro fuel hfuel
    match fuel with
    | fuel + 1 =>
      unfold utf8Encode
      rw [List.flatMap_cons]
      show utf8DecodeAux (fuel + 1) (utf8EncodeChar c ++ tl.flatMap utf8EncodeChar) = _
      rw [utf8DecodeAux_encodeChar]
      show (utf8DecodeAux fuel (utf8Encode tl)).map _ = _
      rw [ih fuel (by simp only [List.length_cons] at hfuel; omega)]
      rfl

theorem utf8Encode_length (cs : List Char) : cs.length ≤ (utf8Encode cs).length := by
  induction cs with
  | nil => simp [utf8Encode]
  | cons c tl ih =>
    unfold utf8Encode at ih ⊢
    rw [List.flatMap_cons, List.length_append]
    have h := utf8EncodeChar_ne_nil c
    have : 0 < (utf8EncodeChar c).length := List.length_pos.mpr h
    simp only [List.length_cons]
    omega

theorem utf8_roundtrip (cs : List Char) : utf8Decode (utf8Encode cs) = some cs :=
  utf8_roundtrip_aux cs (utf8Encode cs).length (utf8Encode_length cs)

end Codegen

namespace Codegen

/-! ### base64url lemmas -/

theorem b64Val_b64Char_fin : ∀ m : Fin 64, b64Val (b64Char m.1) = some m.1 := by
  decide

theorem b64Val_b64Char (n : Nat) (h : n < 64) : b64Val (b64Char n) = some n :=
  b64Val_b64Char_fin ⟨n, h⟩

theorem b64_roundtrip : ∀ (bs : List Nat), (∀ b ∈ bs, b < 256) →
    b64DecodeChars (b64EncodeChars bs) = some bs
  | [], _ => rfl
  | [b0], h => by
    have hb0 : b0 < 256 := h b0 (by simp)
    simp only [b64EncodeChars, b64DecodeChars]
    rw [b64Val_b64Char _ (by omega), b64Val_b64Char _ (by omega)]
    simp only [Option.some_bind]
    have e : b0 * 16 / 64 * 64 + b0 * 16 % 64 = b0 * 16 := by omega
    rw [e]
    have e2 : b0 * 16 / 16 = b0 := by omega
    rw [e2]
  | [b0, b1], h => by
    have hb0 : b0 < 256 := h b0 (by simp)
    have hb1 : b1 < 256 := h b1 (by simp)
    simp only [b64EncodeChars, b64DecodeChars]
    rw [b64Val_b64Char _ (by omega), b64Val_b64Char _ (by omega),
      b64Val_b64Char _ (by omega)]
    simp only [Option.some_bind]
    have e : (b0 * 1024 + b1 * 4) / 4096 * 4096 +
        (b0 * 1024 + b1 * 4) / 64 % 64 * 64 + (b0 * 1024 + b1 * 4) % 64 =
        b0 * 1024 + b1 * 4 := by omega
    rw [e]
    have e1 : (b0 * 1024 + b1 * 4) / 1024 = b0 := by omega
    have e2 : (b0 * 1024 + b1 * 4) / 4 % 256 = b1 := by omega
    rw [e1, e2]
  | b0 :: b1 :: b2 :: rest, h => by
    have hb0 : b0 < 256 := h b0 (by simp)
    have hb1 : b1 < 256 := h b1 (by simp)
    have hb2 : b2 < 256 := h b2 (by simp)
    have ih := b64_roundtrip rest fun b hb => h b (by simp [hb])
    simp only [b64EncodeChars, b64DecodeChars]
    rw [b64Val_b64Char _ (by omega), b64Val_b64Char _ (by omega),
      b64Val_b64Char _ (by omega), b64Val_b64Char _ (by omega)]
    simp only [Option.some_bind]
    rw [ih]
    simp only [Option.map_some']
    have e : (b0 * 65536 + b1 * 256 + b2) / 262144 * 262144 +
        (b0 * 65536 + b1 * 256 + b2) / 4096 % 64 * 4096 +
        (b0 * 65536 + b1 * 256 + b2) / 64 % 64 * 64 +
        (b0 * 65536 + b1 * 256 + b2) % 64 = b0 * 65536 + b1 * 256 + b2 := by
      omega
    rw [e]
    have e1 : (b0 * 65536 + b1 * 256 + b2) / 65536 = b0 := by omega
    have e2 : (b0 * 65536 + b1 * 256 + b2) / 256 % 256 = b1 := by omega
    have e3 : (b0 * 65536 + b1 * 256 + b2) % 256 = b2 := by omega
    rw [e1, e2, e3]

theorem utf8Encode_lt (cs : List Char) : ∀ b ∈ utf8Encode cs, b < 256 := by
  intro b hb
  unfold utf8Encode at hb
  obtain ⟨c, _, hbc⟩ := List.mem_flatMap.mp hb
  exact utf8EncodeChar_lt c b hbc

theorem base64url_roundtrip (s : String) :
    base64urlDecode (base64urlEncode s) = some s := by
  unfold base64urlEncode base64urlDecode
  rw [show (String.mk (b64EncodeChars (utf8Encode s.data))).data =
    b64EncodeChars (utf8Encode s.data) from rfl]
  rw [b64_roundtrip _ (utf8Encode_lt s.data)]
  simp only [Option.some_bind]
  rw [utf8_roundtrip]
  simp only [Option.map_some', mk_data_str]

end Codegen

namespace Codegen

/-! ### JSON printer/parser round trip -/

theorem parseStringBody_escape (cs : List Char) :
    ∀ (rest : List Char) (fuel : Nat),
      (cs.flatMap escapeJsonChar).length + 1 ≤ fuel →
      parseStringBody fuel (cs.flatMap escapeJsonChar ++ '"' :: rest) =
        some (cs, rest) := by
  induction cs with
  | nil =>
    intro rest fuel hfuel
    match fuel with
    | fuel + 1 =>
      simp only [List.flatMap_nil, List.nil_append, parseStringBody]
      simp
  | cons c cs ih =>
    intro rest fuel hfuel
    simp only [List.flatMap_cons, List.length_append] at hfuel ⊢
    by_cases h1 : c = '"'
    · subst h1
      rw [show escapeJsonChar '"' = ['\\', '"'] from rfl] at hfuel ⊢
      simp only [List.length_cons, List.length_nil] at hfuel
      match fuel, hfuel with
      | fuel + 1, _ =>
        simp only [List.append_eq, List.cons_append, List.nil_append,
          List.append_assoc, parseStringBody]
        rw [if_neg (by decide), if_pos (by decide)]
        rw [show takeC ('"' :: (cs.flatMap escapeJsonChar ++ '"' :: rest)) =
          some ('"', cs.flatMap escapeJsonChar ++ '"' :: rest) from rfl]
        simp only [Option.some_bind]
        rw [ih rest fuel (by omega)]
        rw [show unescapeJsonChar '"' = '"' from by decide]
        rfl
    · by_cases h2 : c = '\\'
      · subst h2
        rw [show escapeJsonChar '\\' = ['\\', '\\'] from by decide] at hfuel ⊢
        simp only [List.length_cons, List.length_nil] at hfuel
        match fuel, hfuel with
        | fuel + 1, _ =>
          simp only [List.append_eq, List.cons_append, List.nil_append,
            List.append_assoc, parseStringBody]
          rw [if_neg (by decide), if_pos (by decide)]
          rw [show takeC ('\\' :: (cs.flatMap escapeJsonChar ++ '"' :: rest)) =
            some ('\\', cs.flatMap escapeJsonChar ++ '"' :: rest) from rfl]
          simp only [Option.some_bind]
          rw [ih rest fuel (by omega)]
          rw [show unescapeJsonChar '\\' = '\\' from by decide]
          rfl
      · rw [show escapeJsonChar c = [c] from by simp [escapeJsonChar, h1, h2]] at hfuel ⊢
        simp only [List.length_cons, List.length_nil] at hfuel
        match fuel, hfuel with
        | fuel + 1, _ =>
          simp only [List.append_eq, List.cons_append, List.nil_append,
            List.append_assoc, parseStringBody]
          rw [if_neg h1, if_neg h2, ih rest fuel (by omega)]
          rfl

theorem parseNumAux_digits (ds : List Nat) (hds : ∀ d ∈ ds, d < 10) :
    ∀ (acc : List Nat) (rest : List Char), headNotDigit rest →
      parseNumAux (ds.map digitChar ++ rest) acc = (ds.reverse ++ acc, rest) := by
  induction ds with
  | nil =>
    intro acc rest hrest
    match rest with
    | [] => rfl
    | c :: r =>
      have hc : digitVal c = none := hrest
      simp only [List.map_nil, List.nil_append, parseNumAux, hc, List.reverse_nil]
  | cons d ds ih =>
    intro acc rest hrest
    have hd : d < 10 := hds d (List.mem_cons_self d ds)
    simp only [List.append_eq, List.map_cons, List.cons_append, parseNumAux,
      digitVal_digitChar d hd]
    rw [ih (fun x hx => hds x (List.mem_cons_of_mem d hx)) (d :: acc) rest hrest]
    simp

theorem natPrintChars_eq (n : Nat) :
    ∃ ds, natPrintChars n = ds.map digitChar ∧ ds ≠ [] ∧
      (∀ d ∈ ds, d < 10) ∧ Nat.ofDigits 10 ds.reverse = n := by
  by_cases h0 : n = 0
  · subst h0
    refine ⟨[0], by decide, by decide, by decide, by decide⟩
  · refine ⟨(Nat.digits 10 n).reverse, ?_, ?_, ?_, ?_⟩
    · rw [natPrintChars, if_neg h0, List.map_reverse]
    · simp [Nat.digits_ne_nil_iff_ne_zero, h0]
    · intro d hd
      exact Nat.digits_lt_base (by norm_num) (List.mem_reverse.mp hd)
    · rw [List.reverse_reverse, Nat.ofDigits_digits]

theorem parseNum_print (n : Nat) (rest : List Char) (hrest : headNotDigit rest) :
    parseNum (natPrintChars n ++ rest) = some (.num n, rest) := by
  obtain ⟨ds, hmap, hne, hlt, hof⟩ := natPrintChars_eq n
  rw [hmap]
  unfold parseNum
  rw [parseNumAux_digits ds hlt [] rest hrest]
  simp only [List.append_nil]
  rw [if_neg (by simpa using hne), hof]

theorem needJ_pos : ∀ j : Json, 1 ≤ needJ j := by
  intro j
  cases j <;> simp [needJ]

theorem needElems_pos : ∀ l : List Json, 1 ≤ needElems l := by
  intro l
  match l with
  | [] => simp [needElems]
  | [e] => simp [needElems]
  | e :: e' :: es =>
    simp only [needElems]
    omega

theorem needFields_pos : ∀ l : List (String × Json), 1 ≤ needFields l := by
  intro l
  match l with
  | [] => simp [needFields]
  | [(k, v)] => simp [needFields]
  | (k, v) :: f :: fs =>
    simp only [needFields]
    omega

theorem printJson_head (j : Json) :
    ∃ c cs, printJson j = c :: cs ∧ c ≠ ']' := by
  cases j with
  | null => exact ⟨'n', _, rfl, by decide⟩
  | bool b =>
    cases b with
    | false => exact ⟨'f', _, rfl, by decide⟩
    | true => exact ⟨'t', _, rfl, by decide⟩
  | num n =>
    obtain ⟨ds, hmap, hne, hlt, _⟩ := natPrintChars_eq n
    match ds, hne with
    | d :: ds', _ =>
      refine ⟨digitChar d, ds'.map digitChar, ?_, ?_⟩
      · rw [show printJson (.num n) = natPrintChars n from rfl, hmap, List.map_cons]
      · have hd : d < 10 := hlt d (List.mem_cons_self d ds')
        intro he
        have := congrArg Char.toNat he
        have h57 : (digitChar d).toNat = 48 + d := by
          rw [digitChar, char_toNat_ofNat (Or.inl (by omega))]
        rw [h57] at this
        have h93 : (']' : Char).toNat = 93 := rfl
        omega
  | str s => exact ⟨'"', _, rfl, by decide⟩
  | arr l => exact ⟨'[', _, rfl, by decide⟩
  | obj l => exact ⟨'\x7b', _, rfl, by decide⟩

end Codegen

namespace Codegen

theorem digitChar_toNat {d : Nat} (hd : d < 10) : (digitChar d).toNat = 48 + d := by
  rw [digitChar, char_toNat_ofNat (Or.inl (by omega))]

theorem digitChar_ne {d : Nat} (hd : d < 10) {c : Char}
    (hc : 58 ≤ c.toNat ∨ c.toNat < 48) : digitChar d ≠ c := by
  intro he
  have h := congrArg Char.toNat he
  rw [digitChar_toNat hd] at h
  omega

mutual

theorem parseJson_print (j : Json) : ∀ (fuel : Nat) (rest : List Char),
    needJ j ≤ fuel → headNotDigit rest →
    parseJson fuel (printJson j ++ rest) = some (j, rest) := by
  cases j with
  | null =>
    intro fuel rest hfuel _
    simp only [needJ] at hfuel
    cases fuel with
    | zero => omega
    | succ f =>
      simp only [printJson, List.cons_append, List.nil_append, parseJson]
      simp
  | bool b =>
    intro fuel rest hfuel _
    simp only [needJ] at hfuel
    cases fuel with
    | zero => omega
    | succ f =>
      cases b <;>
        · simp only [printJson, List.cons_append, List.nil_append, parseJson]
          simp
  | num n =>
    intro fuel rest hfuel hrest
    simp only [needJ] at hfuel
    cases fuel with
    | zero => omega
    | succ f =>
      obtain ⟨ds, hmap, hne, hlt, hof⟩ := natPrintChars_eq n
      match ds, hne, hlt with
      | d :: ds', _, hlt =>
        have hd : d < 10 := hlt d (List.mem_cons_self d ds')
        rw [show printJson (.num n) = natPrintChars n from rfl, hmap]
        simp only [List.map_cons, List.cons_append, parseJson]
        rw [if_neg (digitChar_ne hd (by decide)), if_neg (digitChar_ne hd (by decide)),
          if_neg (digitChar_ne hd (by decide)), if_neg (digitChar_ne hd (by decide)),
          if_neg (digitChar_ne hd (by decide)), if_neg (digitChar_ne hd (by decide)),
          if_pos (by rw [digitVal_digitChar d hd]; rfl)]
        rw [show digitChar d :: (List.map digitChar ds' ++ rest) =
          natPrintChars n ++ rest from by rw [hmap]; simp]
        exact parseNum_print n rest hrest
  | str s =>
    intro fuel rest hfuel _
    simp only [needJ] at hfuel
    cases fuel with
    | zero => omega
    | succ f =>
      simp only [printJson, printStr, List.cons_append, List.append_assoc,
        List.nil_append, parseJson]
      rw [parseStringBody_escape s.data rest _
        (by simp only [List.length_append, List.length_cons]; omega)]
      simp [mk_data_str]
  | arr l =>
    intro fuel rest hfuel _
    simp only [needJ] at hfuel
    cases fuel with
    | zero => omega
    | succ f =>
      simp only [printJson, List.cons_append, List.append_assoc,
        List.nil_append, parseJson]
      rw [parseElems_print l f rest (by omega)]
      simp
  | obj l =>
    intro fuel rest hfuel _
    simp only [needJ] at hfuel
    cases fuel with
    | zero => omega
    | succ f =>
      simp only [printJson, List.cons_append, List.append_assoc,
        List.nil_append, parseJson]
      rw [parseFields_print l f rest (by omega)]
      simp

theorem parseElems_print (l : List Json) : ∀ (fuel : Nat) (rest : List Char),
    needElems l ≤ fuel →
    parseElems fuel (printList l ++ ']' :: rest) = some (l, rest) := by
  match l with
  | [] =>
    intro fuel rest hfuel
    simp only [needElems] at hfuel
    cases fuel with
    | zero => omega
    | succ f =>
      simp only [printList, List.nil_append, parseElems]
      simp
  | [e] =>
    intro fuel rest hfuel
    simp only [needElems] at hfuel
    cases fuel with
    | zero => omega
    | succ f =>
      obtain ⟨c, cs, hpr, hcne⟩ := printJson_head e
      simp only [printList]
      rw [hpr]
      simp only [List.append_eq, List.cons_append, List.append_assoc, parseElems]
      rw [if_neg hcne]
      rw [show c :: (cs ++ ']' :: rest) = printJson e ++ ']' :: rest from by
        rw [hpr]; simp]
      rw [parseJson_print e f (']' :: rest) (by omega)
        (by decide : digitVal ']' = none)]
      simp only [Option.some_bind]
  | e :: e' :: es =>
    intro fuel rest hfuel
    simp only [needElems] at hfuel
    cases fuel with
    | zero => omega
    | succ f =>
      obtain ⟨c, cs, hpr, hcne⟩ := printJson_head e
      simp only [printList]
      rw [List.append_assoc, hpr]
      simp only [List.append_eq, List.cons_append, List.append_assoc, parseElems]
      rw [if_neg hcne]
      rw [show c :: (cs ++ (',' :: (printList (e' :: es) ++ ']' :: rest))) =
        printJson e ++ ',' :: (printList (e' :: es) ++ ']' :: rest) from by
          rw [hpr]; simp]
      rw [parseJson_print e f (',' :: (printList (e' :: es) ++ ']' :: rest))
        (by have := needElems_pos (e' :: es); omega)
        (by decide : digitVal ',' = none)]
      simp only [Option.some_bind]
      rw [parseElems_print (e' :: es) f rest (by omega)]
      rfl

theorem parseFields_print (l : List (String × Json)) : ∀ (fuel : Nat) (rest : List Char),
    needFields l ≤ fuel →
    parseFields fuel (printFields l ++ '\x7d' :: rest) = some (l, rest) := by
  match l with
  | [] =>
    intro fuel rest hfuel
    simp only [needFields] at hfuel
    cases fuel with
    | zero => omega
    | succ f =>
      simp only [printFields, List.nil_append, parseFields]
      simp
  | [(k, v)] =>
    intro fuel rest hfuel
    simp only [needFields] at hfuel
    cases fuel with
    | zero => omega
    | succ f =>
      simp only [printFields, printStr, List.append_eq, List.cons_append,
        List.append_assoc, List.nil_append, parseFields]
      rw [parseStringBody_escape k.data (':' :: (printJson v ++ '\x7d' :: rest)) _
        (by simp only [List.length_append, List.length_cons]; omega)]
      simp only [Option.some_bind]
      rw [parseJson_print v f ('\x7d' :: rest) (by omega)
        (by decide : digitVal '\x7d' = none)]
      simp [mk_data_str]
  | (k, v) :: f' :: fs =>
    intro fuel rest hfuel
    simp only [needFields] at hfuel
    cases fuel with
    | zero => omega
    | succ f =>
      simp only [printFields, printStr, List.append_eq, List.cons_append,
        List.append_assoc, List.nil_append, parseFields]
      rw [parseStringBody_escape k.data
        (':' :: (printJson v ++ ',' :: (printFields (f' :: fs) ++ '\x7d' :: rest))) _
        (by simp only [List.length_append, List.length_cons]; omega)]
      simp only [Option.some_bind]
      rw [parseJson_print v f
        (',' :: (printFields (f' :: fs) ++ '\x7d' :: rest))
        (by have := needFields_pos (f' :: fs); omega)
        (by decide : digitVal ',' = none)]
      simp only [Option.some_bind]
      rw [parseFields_print (f' :: fs) f rest (by omega)]
      simp [mk_data_str]

end

end Codegen

namespace Codegen

theorem natPrintChars_ne_nil (n : Nat) : natPrintChars n ≠ [] := by
  obtain ⟨ds, hmap, hne, _, _⟩ := natPrintChars_eq n
  rw [hmap]
  simpa using hne

mutual

theorem needJ_le (j : Json) : needJ j ≤ (printJson j).length := by
  cases j with
  | null => simp [needJ, printJson]
  | bool b => cases b <;> simp [needJ, printJson]
  | num n =>
    have h := natPrintChars_ne_nil n
    have : 0 < (natPrintChars n).length := List.length_pos.mpr h
    simp only [needJ]
    rw [show printJson (.num n) = natPrintChars n from rfl]
    omega
  | str s =>
    simp only [needJ, printJson, printStr, List.length_cons]
    omega
  | arr l =>
    have h := needElems_le l
    simp only [needJ, printJson, List.length_cons, List.length_append]
    simp only [List.length_cons, List.length_nil]
    omega
  | obj l =>
    have h := needFields_le l
    simp only [needJ, printJson, List.length_cons, List.length_append]
    simp only [List.length_cons, List.length_nil]
    omega

theorem needElems_le (l : List Json) : needElems l ≤ (printList l).length + 1 := by
  match l with
  | [] => simp [needElems, printList]
  | [e] =>
    have h := needJ_le e
    simp only [needElems, printList]
    omega
  | e :: e' :: es =>
    have h1 := needJ_le e
    have h2 := needElems_le (e' :: es)
    simp only [needElems, printList, List.length_append, List.length_cons]
    omega

theorem needFields_le (l : List (String × Json)) :
    needFields l ≤ (printFields l).length + 1 := by
  match l with
  | [] => simp [needFields, printFields]
  | [(k, v)] =>
    have h := needJ_le v
    simp only [needFields, printFields, List.length_append, List.length_cons]
    omega
  | (k, v) :: f' :: fs =>
    have h1 := needJ_le v
    have h2 := needFields_le (f' :: fs)
    simp only [needFields, printFields, List.length_append, List.length_cons]
    omega

end

theorem jsonParse_jsonPrint (j : Json) : jsonParse (jsonPrint j) = some j := by
  unfold jsonParse jsonPrint
  rw [show (String.mk (printJson j)).data = printJson j from rfl]
  have h := parseJson_print j ((printJson j).length + 1) []
    (le_trans (needJ_le j) (by omega)) trivial
  rw [List.append_nil] at h
  rw [h]
  simp

end Codegen

namespace Codegen

/-! ### Config codec round trip -/

theorem tv_roundtrip (v : TargetingValue) : tvOfJson (tvToJson v) = some v := by
  cases v with
  | one s => rfl
  | many l =>
    simp only [tvToJson, tvOfJson]
    rw [mapM_of_comp strOfJson Json.str l (fun a _ => rfl)]
    rfl

theorem kv_roundtrip (kv : SampleTargetingKV) : kvOfJson (kvToJson kv) = some kv := by
  obtain ⟨k, v⟩ := kv
  simp [kvOfJson, kvToJson, jLookup, strOfJson, tv_roundtrip]

theorem kvList_roundtrip (l : List SampleTargetingKV) :
    kvListOfJson (.arr (l.map kvToJson)) = some l := by
  simp only [kvListOfJson]
  exact mapM_of_comp kvOfJson kvToJson l (fun a _ => kv_roundtrip a)

theorem singleSize_roundtrip (s : SingleSize) :
    singleSizeOfJson (singleSizeToJson s) = some s := by
  cases s <;> rfl

theorem size_roundtrip (sz : GeneralSize) : sizeOfJson (sizeToJson sz) = some sz := by
  cases sz with
  | single s => cases s <;> rfl
  | multi l =>
    cases l with
    | nil => rfl
    | cons x tl =>
      cases x with
      | fixed w h =>
        simp only [sizeToJson, List.map_cons, singleSizeToJson, sizeOfJson]
        rw [show (Json.arr [Json.num w, Json.num h]) :: List.map singleSizeToJson tl =
          (SingleSize.fixed w h :: tl).map singleSizeToJson from by
            simp [singleSizeToJson]]
        rw [mapM_of_comp singleSizeOfJson singleSizeToJson _
          (fun a _ => singleSize_roundtrip a)]
        rfl
      | fluid =>
        simp only [sizeToJson, List.map_cons, singleSizeToJson, sizeOfJson]
        rw [show (Json.str "fluid") :: List.map singleSizeToJson tl =
          (SingleSize.fluid :: tl).map singleSizeToJson from by
            simp [singleSizeToJson]]
        rw [mapM_of_comp singleSizeOfJson singleSizeToJson _
          (fun a _ => singleSize_roundtrip a)]
        rfl

theorem format_key_roundtrip (f : OutOfPageFormat) :
    formatOfKey (formatKey f) = some f := by
  cases f <;> rfl

theorem privacy_roundtrip (p : SamplePrivacyConfig) :
    privacyOfJson (privacyToJson p) = some p := by
  obtain ⟨ltd, npa, rdp, tfcd, tfua⟩ := p
  cases ltd <;> cases npa <;> cases rdp <;> cases tfcd <;> cases tfua <;>
    simp [privacyToJson, privacyOfJson, optField, optDec, jLookup, boolOfJson]

theorem page_roundtrip (p : SamplePageConfig) :
    pageOfJson (pageToJson p) = some p := by
  obtain ⟨privacy, sra, targeting⟩ := p
  cases privacy <;> cases sra <;> cases targeting <;>
    simp [pageToJson, pageOfJson, optField, optDec, jLookup, boolOfJson,
      privacy_roundtrip, kvList_roundtrip]

theorem slot_roundtrip (s : SampleSlotConfig) :
    slotOfJson (slotToJson s) = some s := by
  obtain ⟨adUnit, format, size, targeting⟩ := s
  cases format <;> cases targeting <;>
    simp [slotToJson, slotOfJson, optField, optDec, jLookup, strOfJson,
      formatOfJson, format_key_roundtrip, size_roundtrip, kvList_roundtrip]

theorem template_roundtrip (t : SampleTemplateConfig) :
    templateOfJson (templateToJson t) = some t := by
  obtain ⟨ty, target⟩ := t
  cases ty <;> cases target <;>
    simp [templateToJson, templateOfJson, optField, optDec, jLookup,
      strOfJson, natOfJson]

theorem slotList_roundtrip (l : List SampleSlotConfig) :
    (l.map slotToJson).mapM slotOfJson = some l :=
  mapM_of_comp slotOfJson slotToJson l (fun a _ => slot_roundtrip a)

theorem config_roundtrip (c : SampleConfig) :
    configOfJson (configToJson c) = some c := by
  obtain ⟨page, slots, template⟩ := c
  have hslots : List.mapM.loop slotOfJson (List.map slotToJson slots) [] =
      some slots := slotList_roundtrip slots
  cases page <;> cases template <;>
    simp [configToJson, configOfJson, optField, optDec, jLookup,
      page_roundtrip, template_roundtrip, hslots]

end Codegen

/-- C2: for every `SampleConfig`, serializing it to JSON and base64url
(as the configurator does for the URL hash) and then decoding as the entry
point does — base64url decode followed by JSON parse, read back as a typed
config — yields a structurally equal config. -/
theorem c2_url_config_roundtrip (c : SampleConfig) :
    decodeConfigParam (encodeConfig c) = some c := by
  unfold decodeConfigParam encodeConfig
  rw [base64url_roundtrip]
  simp only [Option.some_bind]
  rw [jsonParse_jsonPrint]
  simp only [Option.some_bind]
  rw [config_roundtrip]

/-- C7: when no `config` parameter is present the config defaults to
`{slots: []}`; when a parameter is present (and non-empty, as the source's
truthiness test requires) whose base64url-decoded text is not valid JSON,
initialization propagates the parse failure with no recovery or
fallback. -/
theorem c7_initConfig (p : Option String) :
    (p = none → initConfig p = some { page := none, slots := [], template := none }) ∧
    (∀ q s, p = some q → q ≠ "" → base64urlDecode q = some s → jsonParse s = none →
      initConfig p = none) := by
  constructor
  · intro hp
    subst hp
    rfl
  · intro q s hp hq hdec hparse
    subst hp
    simp only [initConfig, if_neg hq, decodeConfigParam, hdec, Option.some_bind,
      hparse]
    rfl

/-- C7 witness: the absent parameter yields the default config, and a
parameter decoding to the non-JSON text `nope` makes initialization fail. -/
theorem c7_initConfig_witness :
    initConfig none = some { page := none, slots := [], template := none } ∧
    initConfig (some (base64urlEncode "nope")) = none :=
  ⟨(c7_initConfig none).1 rfl,
   (c7_initConfig (some (base64urlEncode "nope"))).2 (base64urlEncode "nope") "nope"
     rfl (by decide) (base64url_roundtrip "nope") (by rfl)⟩
